import Mathlib

/-!
# The markdown tab of VNote (`src/vmdtab.cpp`)

A shallow embedding of `VMdTab`, the tab that shows one markdown note either
rendered (read mode) or in an editor (edit mode).

The tab is a record of its own members.  Everything it talks to (the editor
widget, the web document, the outline object, the note file, dialogs and the
file system) lives in classes whose code is not part of `src/`.  Those
collaborators are modelled by their interaction with the tab:

* every call the tab makes on a collaborator that can have an effect is
  recorded, newest first, in the field `log`;
* every value a collaborator hands back is given by a field of `Env`, as a
  function of the calls made so far.  Theorems quantify over `Env`, so they
  hold for every behaviour of the collaborators.

Calls return to the tab without re-entering it: signals are recorded, the
slots they are connected to are not run from inside a call.

Zoom factors (`qreal`) are rational numbers.

What is left out: the texts of dialogs and of debug output are shortened to a
tag and their arguments; the constructor, the layout and the signal wiring of
the web view are not part of the model.  `Q_ASSERT(m_editor)` is not modelled
as a failure: a theorem that needs the editor to exist says so in a
hypothesis.  In edit mode the editor always exists, since `showFileEditMode`,
the only place that enters edit mode, obtains it through `getEditor`.
-/

namespace VNote

/-! ## Data -/

/-- The two kinds of outline, as used in `vmdtab.cpp`. -/
inductive VTableOfContentType where
  | Anchor
  | BlockNumber
deriving DecidableEq, Repr

/-- The markdown converter; `vmdtab.cpp` only distinguishes `Hoedown`. -/
inductive MarkdownConverterType where
  | Hoedown
  | other (k : Nat)
deriving DecidableEq, Repr

/-- A pointer to a header: the file it belongs to (`none` is `NULL`, files are
named by a number) and the index of the header in the outline. -/
structure VHeaderPointer where
  m_file : Option Nat
  m_index : Int
deriving DecidableEq, Repr

/-- Modelled from the spec: `VHeaderPointer::isValid` is declared in a header
that is not among the sources.  A header pointer is called not valid when its
index is -1, and `showFileEditMode` itself tests `header.m_index > -1`. -/
def VHeaderPointer.isValid (p : VHeaderPointer) : Bool :=
  decide (p.m_index > -1)

/-- The members of an outline item that `vmdtab.cpp` reads. -/
structure VTableOfContentItem where
  m_anchor : String
  m_blockNumber : Int
deriving DecidableEq, Repr

/-- The type of a snippet, `VSnippet::Type`; `vmdtab.cpp` only distinguishes
`PlainText`. -/
inductive VSnippetType where
  | PlainText
  | other (k : Nat)
deriving DecidableEq, Repr

/-- A snippet, as far as `prepareSnippetSelector` and `applySnippet` read it.
The shortcut is a `QChar`, given by its code unit; code unit 0 is the null
character. -/
structure VSnippet where
  m_name : String
  m_shortcut : Nat
  m_type : VSnippetType
deriving DecidableEq, Repr

/-- The Vim mode of the editor; `vmdtab.cpp` only sets `Insert`. -/
inductive VimMode where
  | Insert
  | other (k : Nat)
deriving DecidableEq, Repr

/-- The mode a tab reports as ready, `TabReady`. -/
inductive TabReady where
  | ReadMode
  | EditMode
  | other (k : Nat)
deriving DecidableEq, Repr

/-- The members of `VEditTabInfo` that `restoreFromTabInfo` reads: the tab the
information belongs to (`none` is `NULL`, tabs are named by a number) and the
index of the header to restore. -/
structure VEditTabInfo where
  m_editTab : Option Nat
  m_headerIndex : Int
deriving DecidableEq, Repr

/-- The texts shown through `g_mainWin->showStatusMessage`. -/
inductive StatusMessage where
  | snippetApplied
  | snippetNotApplicable (name : String)
deriving DecidableEq, Repr

/-- What `VInsertSelectorItem(name, toolTip, shortcut)` stores. -/
structure VInsertSelectorItem where
  m_name : String
  m_toolTip : String
  m_shortcut : Nat
deriving DecidableEq, Repr

/-- What `new VInsertSelector(nrRows, items, parent)` is given. -/
structure VInsertSelector where
  m_nrRows : Nat
  m_items : List VInsertSelectorItem
  m_parent : Nat
deriving DecidableEq, Repr

/-- The values of `QMessageBox::StandardButton` used by the tab. -/
def QMessageBox.Ok : Int := 0x00000400

/-- The `Save` button. -/
def QMessageBox.Save : Int := 0x00000800

/-- The `Cancel` button. -/
def QMessageBox.Cancel : Int := 0x00400000

/-- The `Discard` button. -/
def QMessageBox.Discard : Int := 0x00800000

/-- The icon of a message box. -/
inductive Icon where
  | Information
  | Warning
deriving DecidableEq, Repr

/-- The texts of the message boxes shown through `VUtils::showMessage`. -/
inductive Message where
  | noteModified (name : String)
  | readOnlyNote (filePath : String)
  | fileRemoved (filePath : String)
  | writeFailed
deriving DecidableEq, Repr

/-- The buttons of the box shown by `checkPreviousBackupFile`. -/
inductive BackupButton where
  | recoverBtn
  | discardBtn
  | cancelBtn
deriving DecidableEq, Repr

/-- The widgets held by `m_stacks`. -/
inductive Widget where
  | webViewer
  | editor
deriving DecidableEq, Repr

/-- The connections made by `setupMarkdownEditor`, by signal, and the
connection of the document's `contentsChange` to the backup timer made by
`tabIsReady`. -/
inductive Connection where
  | headersChanged
  | currentHeaderChanged
  | statusChanged
  | textChanged
  | cursorPositionChanged
  | editorConfigUpdated
  | saveAndRead
  | discardAndRead
  | saveNote
  | statusMessage
  | vimStatusUpdated
  | requestCloseFindReplaceDialog
  | ready
  | contentsChange
deriving DecidableEq, Repr

/-- A call of the tab on one of its collaborators. -/
inductive Call where
  | showMessage (icon : Icon) (msg : Message) (buttons : List Int) (defaultButton : Int)
  | backupBoxExec (preFile : String) (path : String) (identical : Bool)
  | qWarning
  | qDebug
  | sleepWait (ms : Nat)
  | editorNew
  | editorSetProperty
  | editorSetHeadingSequence (enabled : Bool)
  | editorReloadFile
  | editorBeginEdit
  | editorEndEdit
  | editorSaveFile
  | editorSetModified (modified : Bool)
  | editorSetContent (content : String) (modified : Bool)
  | editorScrollToHeader (blockNumber : Int)
  | editorSetFocus
  | editorClearSearchedWordHighlight
  | fileSave
  | fileReadBackupFile (preFile : String)
  | deleteFile (filePath : String)
  | documentUpdateText
  | documentSetHtml (html : String)
  | documentScrollToAnchor (anchor : String)
  | webViewerFindText (text : String)
  | outlineClear
  | outlineParseTableFromHtml (tocHtml : String)
  | outlineSetFile (file : Nat)
  | outlineSetType (type : VTableOfContentType)
  | outlineUpdate (file : Nat) (headers : List VTableOfContentItem) (type : VTableOfContentType)
  | stacksSetCurrentWidget (w : Widget)
  | stacksAddWidget (w : Widget)
  | connect (c : Connection)
  | updateStatus
  | emitCurrentHeaderChanged (header : VHeaderPointer)
  | emitOutlineChanged
  | emitCloseRequested
  | snippetApply (name : String)
  | editorSetTextCursor
  | editorSetVimMode (mode : VimMode)
  | showStatusMessage (msg : StatusMessage)
  | focusTab
  | webViewerSetZoomFactor (factor : ℚ)
deriving DecidableEq, Repr

/-- What the collaborators answer, as functions of the calls made so far
(newest first).  For a call that both acts and answers (`m_file->save()`, a
dialog, `parseTableFromHtml`, the editor's `scrollToHeader`) the call is
recorded first and the answer is read from the log that starts with it. -/
structure Env where
  /-- The value of `m_file->isModifiable()`. -/
  file_isModifiable : List Call → Bool
  /-- The value of `m_file->fetchPath()`. -/
  file_fetchPath : List Call → String
  /-- The value of `m_file->getName()`. -/
  file_getName : List Call → String
  /-- The value of `m_file->getContent()`. -/
  file_getContent : List Call → String
  /-- The result of `m_file->save()`. -/
  file_save : List Call → Bool
  /-- The value of `m_file->backupFileOfPreviousSession()`. -/
  file_backupFileOfPreviousSession : List Call → String
  /-- The result of `m_file->readBackupFile(preFile)`. -/
  file_readBackupFile : List Call → String
  /-- The value of `QFileInfo::exists(filePath)`. -/
  QFileInfo_exists : List Call → String → Bool
  /-- The button code returned by `VUtils::showMessage`. -/
  showMessage : List Call → Int
  /-- The value of `box.clickedButton()` after `box.exec()`; `none` is `NULL`. -/
  clickedButton : List Call → Option BackupButton
  /-- The value of `m_editor->isModified()`. -/
  editor_isModified : List Call → Bool
  /-- The value of `m_editor->getContent()`. -/
  editor_getContent : List Call → String
  /-- The result of `mdEdit->scrollToHeader(blockNumber)`. -/
  editor_scrollToHeader : List Call → Bool
  /-- The value of `m_outline.isMatched(p_header)`. -/
  outline_isMatched : List Call → VHeaderPointer → Bool
  /-- The value of `m_outline.getType()`. -/
  outline_getType : List Call → VTableOfContentType
  /-- The value of `m_outline.getItem(p_header)`; `none` is `NULL`. -/
  outline_getItem : List Call → VHeaderPointer → Option VTableOfContentItem
  /-- The value of `m_outline.isEmpty()`. -/
  outline_isEmpty : List Call → Bool
  /-- The result of `m_outline.parseTableFromHtml(p_tocHtml)`. -/
  outline_parseTableFromHtml : List Call → Bool
  /-- The value of `m_document->getToc()`. -/
  document_getToc : List Call → String
  /-- The html and the table of contents that `mdConverter.generateHtml`
  produces from the note content. -/
  generateHtml : String → String × String
  /-- The effect of `VHeaderPointer::reset()`. -/
  header_reset : VHeaderPointer → VHeaderPointer
  /-- The value of `g_mainWin->getSnippetList()->getSnippets()`. -/
  getSnippets : List Call → List VSnippet
  /-- The result of `p_snippet->apply(cursor)`: whether the snippet changed
  the text under the cursor. -/
  snippet_apply : List Call → Bool
  /-- The value of `m_outline.indexOfItemByAnchor(p_anchor)`. -/
  outline_indexOfItemByAnchor : List Call → String → Int
  /-- The value of `m_outline.indexOfItemByBlockNumber(p_blockNumber)`. -/
  outline_indexOfItemByBlockNumber : List Call → Int → Int
  /-- The effect of `VHeaderPointer::update(p_file, p_index)`. -/
  header_update : VHeaderPointer → Nat → Int → VHeaderPointer
  /-- The effect of `VEditTabInfo::clear()`. -/
  tabInfo_clear : VEditTabInfo → VEditTabInfo
  /-- The value of `m_webViewer->zoomFactor()`. -/
  webViewer_zoomFactor : List Call → ℚ
  /-- The constant `c_webZoomFactorMin`. -/
  c_webZoomFactorMin : ℚ
  /-- The constant `c_webZoomFactorMax`. -/
  c_webZoomFactorMax : ℚ

/-- The members of `VMdTab` (and of its base `VEditTab`) that the functions
below read or write.  A pointer member is `true` when it is not `NULL`. -/
structure VMdTab where
  m_file : Nat
  m_isEditMode : Bool
  m_editor : Bool
  m_webViewer : Bool
  m_currentHeader : VHeaderPointer
  m_fileDiverged : Bool
  m_checkFileChange : Bool
  m_mdConType : MarkdownConverterType
  m_enableHeadingSequence : Bool
  m_enableBackupFile : Bool
  m_backupFileChecked : Bool
  log : List Call
  /-- The identity of the tab itself, the pointer `this`. -/
  thisTab : Nat
  m_infoToRestore : VEditTabInfo
deriving DecidableEq, Repr

/-- Record a call on a collaborator. -/
def VMdTab.call (t : VMdTab) (c : Call) : VMdTab :=
  { t with log := c :: t.log }

/-- The calls made between the state `t` and the later state `t'`, newest first. -/
def newCalls (t t' : VMdTab) : List Call :=
  t'.log.take (t'.log.length - t.log.length)

/-! ## Operations -/

/-- The base-class method `VEditTab::updateStatus`, seen as a call. -/
def updateStatus (t : VMdTab) : VMdTab :=
  t.call Call.updateStatus

/-- The method `VMdTab::isModified`. -/
def isModified (env : Env) (t : VMdTab) : Bool :=
  (if t.m_editor then env.editor_isModified t.log else false) || t.m_fileDiverged

/-- The method `VMdTab::updateOutlineFromHtml`. -/
def updateOutlineFromHtml (env : Env) (t : VMdTab) (p_tocHtml : String) : VMdTab :=
  if t.m_isEditMode then
    t
  else
    let t := t.call Call.outlineClear
    let t := t.call (Call.outlineParseTableFromHtml p_tocHtml)
    let t :=
      if env.outline_parseTableFromHtml t.log then
        (t.call (Call.outlineSetFile t.m_file)).call (Call.outlineSetType VTableOfContentType.Anchor)
      else
        t
    let t := { t with m_currentHeader := env.header_reset t.m_currentHeader }
    t.call Call.emitOutlineChanged

/-- The method `VMdTab::updateOutlineFromHeaders`. -/
def updateOutlineFromHeaders (env : Env) (t : VMdTab)
    (p_headers : List VTableOfContentItem) : VMdTab :=
  if !t.m_isEditMode then
    t
  else
    let t := t.call (Call.outlineUpdate t.m_file p_headers VTableOfContentType.BlockNumber)
    let t := { t with m_currentHeader := env.header_reset t.m_currentHeader }
    t.call Call.emitOutlineChanged

/-- The method `VMdTab::scrollWebViewToHeader`. -/
def scrollWebViewToHeader (env : Env) (t : VMdTab) (p_header : VHeaderPointer) :
    Bool × VMdTab :=
  if !env.outline_isMatched t.log p_header
      || env.outline_getType t.log != VTableOfContentType.Anchor then
    (false, t)
  else if p_header.isValid then
    match env.outline_getItem t.log p_header with
    | some item =>
      if item.m_anchor.isEmpty then
        (false, t)
      else
        let t := { t with m_currentHeader := p_header }
        let t := t.call (Call.documentScrollToAnchor item.m_anchor)
        (true, t.call (Call.emitCurrentHeaderChanged t.m_currentHeader))
    | none => (false, t)
  else if env.outline_isEmpty t.log then
    let t := { t with m_currentHeader := p_header }
    (true, t.call (Call.emitCurrentHeaderChanged t.m_currentHeader))
  else
    let t := { t with m_currentHeader := p_header }
    let t := t.call (Call.documentScrollToAnchor "")
    (true, t.call (Call.emitCurrentHeaderChanged t.m_currentHeader))

/-- The signals that `setupMarkdownEditor` connects, in the order of the source. -/
def editorConnections : List Connection :=
  [Connection.headersChanged, Connection.currentHeaderChanged, Connection.statusChanged,
   Connection.textChanged, Connection.cursorPositionChanged, Connection.editorConfigUpdated,
   Connection.saveAndRead, Connection.discardAndRead, Connection.saveNote,
   Connection.statusMessage, Connection.vimStatusUpdated,
   Connection.requestCloseFindReplaceDialog, Connection.ready]

/-- Make the connections `cs`, one call of `connect` each. -/
def VMdTab.connectAll (t : VMdTab) (cs : List Connection) : VMdTab :=
  cs.foldl (fun t c => t.call (Call.connect c)) t

/-- The method `VMdTab::setupMarkdownEditor`: create the editor, connect its
signals, pass on the heading-sequence setting (`enableHeadingSequence`), load
the file into the editor and add the editor to the stack. -/
def setupMarkdownEditor (t : VMdTab) : VMdTab :=
  let t := { t.call Call.editorNew with m_editor := true }
  let t := t.call Call.editorSetProperty
  let t := t.connectAll editorConnections
  let t :=
    if t.m_editor then t.call (Call.editorSetHeadingSequence t.m_enableHeadingSequence) else t
  let t := t.call Call.editorReloadFile
  t.call (Call.stacksAddWidget Widget.editor)

/-- Modelled from the spec: `VMdTab::getEditor` is defined in `vmdtab.h`, which
is not among the sources.  `setupUI` leaves `m_editor` `NULL` with the comment
"Setup editor when we really need it" and `setupMarkdownEditor` asserts that
there is no editor yet, so `getEditor` creates the editor on first use. -/
def getEditor (t : VMdTab) : VMdTab :=
  if t.m_editor then t else setupMarkdownEditor t

/-- The method `VMdTab::scrollEditorToHeader`. -/
def scrollEditorToHeader (env : Env) (t : VMdTab) (p_header : VHeaderPointer) :
    Bool × VMdTab :=
  if !env.outline_isMatched t.log p_header
      || env.outline_getType t.log != VTableOfContentType.BlockNumber then
    (false, t)
  else
    let t := getEditor t
    let scroll (t : VMdTab) (blockNumber : Int) : Bool × VMdTab :=
      let t := t.call (Call.editorScrollToHeader blockNumber)
      if env.editor_scrollToHeader t.log then
        (true, { t with m_currentHeader := p_header })
      else
        (false, t)
    if p_header.isValid then
      match env.outline_getItem t.log p_header with
      | some item =>
        if item.m_blockNumber == -1 then
          (false, t)
        else
          scroll t item.m_blockNumber
      | none => (false, t)
    else if env.outline_isEmpty t.log then
      (true, { t with m_currentHeader := p_header })
    else
      scroll t 0

/-- The method `VMdTab::scrollToHeaderInternal`. -/
def scrollToHeaderInternal (env : Env) (t : VMdTab) (p_header : VHeaderPointer) :
    Bool × VMdTab :=
  if t.m_isEditMode then
    scrollEditorToHeader env t p_header
  else
    scrollWebViewToHeader env t p_header

/-- The method `VMdTab::scrollToHeader`. -/
def scrollToHeader (env : Env) (t : VMdTab) (p_header : VHeaderPointer) : VMdTab :=
  if env.outline_isMatched t.log p_header then
    (scrollToHeaderInternal env t p_header).2
  else
    t

/-- The method `VMdTab::viewWebByConverter`. -/
def viewWebByConverter (env : Env) (t : VMdTab) : VMdTab :=
  let r := env.generateHtml (env.file_getContent t.log)
  let t := t.call (Call.documentSetHtml r.1)
  updateOutlineFromHtml env t r.2

/-- The method `VMdTab::clearSearchedWordHighlight`. -/
def clearSearchedWordHighlight (t : VMdTab) : VMdTab :=
  let t := if t.m_webViewer then t.call (Call.webViewerFindText "") else t
  if t.m_editor then t.call Call.editorClearSearchedWordHighlight else t

/-- The method `VMdTab::showFileReadMode`. -/
def showFileReadMode (env : Env) (t : VMdTab) : VMdTab :=
  let t := { t with m_isEditMode := false }
  let header := t.m_currentHeader
  let t :=
    if t.m_mdConType = MarkdownConverterType.Hoedown then
      viewWebByConverter env t
    else
      let t := t.call Call.documentUpdateText
      updateOutlineFromHtml env t (env.document_getToc t.log)
  let t := t.call (Call.stacksSetCurrentWidget Widget.webViewer)
  let t := clearSearchedWordHighlight t
  let t := (scrollWebViewToHeader env t header).2
  updateStatus t

/-- The waiting loop of `showFileEditMode`: while the header index is above -1,
the outline is empty and `nrRetry` (tested, then decremented) is positive,
sleep 100 ms. -/
def waitForHeaders (env : Env) (header : VHeaderPointer) : Nat → VMdTab → VMdTab
  | 0, t => t
  | nrRetry + 1, t =>
    if header.m_index > -1 && env.outline_isEmpty t.log then
      waitForHeaders env header nrRetry ((t.call Call.qDebug).call (Call.sleepWait 100))
    else
      t

/-- The method `VMdTab::showFileEditMode`. -/
def showFileEditMode (env : Env) (t : VMdTab) : VMdTab :=
  let header := t.m_currentHeader
  let t := { t with m_isEditMode := true }
  let t := getEditor t
  let t := t.call (Call.stacksSetCurrentWidget Widget.editor)
  let t := t.call Call.editorBeginEdit
  let t := waitForHeaders env header 5 t
  let t := (scrollEditorToHeader env t header).2
  t.call Call.editorSetFocus

/-- The method `VMdTab::saveFile`. -/
def saveFile (env : Env) (t : VMdTab) : Bool × VMdTab :=
  if !t.m_isEditMode then
    (true, t)
  else if !isModified env t then
    (true, t)
  else
    let filePath := env.file_fetchPath t.log
    if !env.file_isModifiable t.log then
      let t := t.call (Call.showMessage Icon.Warning (Message.readOnlyNote filePath)
        [QMessageBox.Ok] QMessageBox.Ok)
      (false, t)
    else if !env.QFileInfo_exists t.log filePath then
      let t := t.call Call.qWarning
      let t := t.call (Call.showMessage Icon.Warning (Message.fileRemoved filePath)
        [QMessageBox.Ok] QMessageBox.Ok)
      (false, updateStatus t)
    else
      let t := t.call Call.editorSaveFile
      let t := t.call Call.fileSave
      let ret := env.file_save t.log
      let t :=
        if !ret then
          let t := t.call (Call.showMessage Icon.Warning Message.writeFailed
            [QMessageBox.Ok] QMessageBox.Ok)
          t.call (Call.editorSetModified true)
        else
          { t with m_fileDiverged := false, m_checkFileChange := true }
      (ret, updateStatus t)

/-- The message box with which `readFile` asks what to do with the changes. -/
def readFilePrompt (env : Env) (t : VMdTab) : Call :=
  let modifiable := env.file_isModifiable t.log
  Call.showMessage Icon.Information (Message.noteModified (env.file_getName t.log))
    (if modifiable then [QMessageBox.Save, QMessageBox.Discard, QMessageBox.Cancel]
     else [QMessageBox.Discard, QMessageBox.Cancel])
    (if modifiable then QMessageBox.Save else QMessageBox.Cancel)

/-- The end of `readFile`, after the `switch`: end editing and show the note
in read mode. -/
def readFileFinish (env : Env) (t : VMdTab) : VMdTab :=
  let t := if t.m_editor then t.call Call.editorEndEdit else t
  showFileReadMode env t

/-- The method `VMdTab::readFile`. -/
def readFile (env : Env) (t : VMdTab) : VMdTab :=
  if !t.m_isEditMode then
    t
  else if t.m_editor && isModified env t then
    let t := t.call (readFilePrompt env t)
    let ret := env.showMessage t.log
    if ret = QMessageBox.Save then
      let r := saveFile env t
      if !r.1 then
        r.2
      else
        -- falls through to the Discard case
        readFileFinish env (r.2.call Call.editorReloadFile)
    else if ret = QMessageBox.Discard then
      readFileFinish env (t.call Call.editorReloadFile)
    else if ret = QMessageBox.Cancel then
      t
    else
      t.call Call.qWarning
  else
    readFileFinish env t

/-- The method `VMdTab::closeFile`. -/
def closeFile (env : Env) (t : VMdTab) (p_forced : Bool) : Bool × VMdTab :=
  let t :=
    if p_forced && t.m_isEditMode then
      let t := t.call Call.editorReloadFile
      let t := t.call Call.editorEndEdit
      showFileReadMode env t
    else
      readFile env t
  (!t.m_isEditMode, t)

/-- The method `VMdTab::checkPreviousBackupFile`. -/
def checkPreviousBackupFile (env : Env) (t : VMdTab) : Bool × VMdTab :=
  let t := { t with m_backupFileChecked := true }
  let preFile := env.file_backupFileOfPreviousSession t.log
  if preFile.isEmpty then
    (true, t)
  else
    let t := t.call (Call.fileReadBackupFile preFile)
    let backupContent := env.file_readBackupFile t.log
    let t := t.call (Call.backupBoxExec preFile (env.file_fetchPath t.log)
      (env.file_getContent t.log == backupContent))
    let btn := env.clickedButton t.log
    if btn = some BackupButton.cancelBtn || btn = none then
      (false, t.call Call.emitCloseRequested)
    else
      let t :=
        if btn = some BackupButton.recoverBtn then
          let t := if !t.m_isEditMode then showFileEditMode env t else t
          let t := t.call (Call.editorSetContent backupContent true)
          updateStatus t
        else
          t
      (true, t.call (Call.deleteFile preFile))

/-- The comparison `selectorItemCmp`. -/
def selectorItemCmp (p_a p_b : VInsertSelectorItem) : Bool :=
  if p_a.m_shortcut < p_b.m_shortcut then true else false

/-- Insert `x` into a list ordered by `lt`, before the first element it is
smaller than. -/
def sortInsert {α : Type} (lt : α → α → Bool) (x : α) : List α → List α
  | [] => [x]
  | y :: ys => if lt x y then x :: y :: ys else y :: sortInsert lt x ys

/-- The library routine `std::sort(first, last, comp)`, run as an insertion
sort driven by the comparison `comp`. -/
def stdSort {α : Type} (comp : α → α → Bool) (l : List α) : List α :=
  l.foldr (sortInsert comp) []

/-- The loop of `prepareSnippetSelector` that collects an item for every
snippet whose shortcut is not null. -/
def collectItems : List VSnippet → List VInsertSelectorItem → List VInsertSelectorItem
  | [], items => items
  | snip :: rest, items =>
    if !(snip.m_shortcut == 0) then
      collectItems rest (items ++ [VInsertSelectorItem.mk snip.m_name snip.m_name snip.m_shortcut])
    else
      collectItems rest items

/-- The method `VMdTab::prepareSnippetSelector`; `none` is `NULL`. -/
def prepareSnippetSelector (env : Env) (t : VMdTab) (p_parent : Nat) :
    Option VInsertSelector :=
  let snippets := env.getSnippets t.log
  let items := collectItems snippets []
  if items.isEmpty then
    none
  else
    let items := stdSort selectorItemCmp items
    some (VInsertSelector.mk 7 items p_parent)

/-! ## Reading the log -/

/-- The log `r` continues the log `l` with calls that all satisfy `P`. -/
inductive Adds (P : Call → Prop) (l : List Call) : List Call → Prop where
  | refl : Adds P l l
  | cons {c : Call} {r : List Call} : P c → Adds P l r → Adds P l (c :: r)

/-- The calls that are made on the editor widget. -/
def Call.onEditor : Call → Bool
  | Call.editorNew => true
  | Call.editorSetProperty => true
  | Call.editorSetHeadingSequence _ => true
  | Call.editorReloadFile => true
  | Call.editorBeginEdit => true
  | Call.editorEndEdit => true
  | Call.editorSaveFile => true
  | Call.editorSetModified _ => true
  | Call.editorSetContent _ _ => true
  | Call.editorScrollToHeader _ => true
  | Call.editorSetFocus => true
  | Call.editorClearSearchedWordHighlight => true
  | Call.editorSetTextCursor => true
  | Call.editorSetVimMode _ => true
  | _ => false

/-- The calls that put a dialog in front of the user. -/
def Call.isPrompt : Call → Bool
  | Call.showMessage _ _ _ _ => true
  | Call.backupBoxExec _ _ _ => true
  | _ => false

/-- The calls that write the note: the editor handing its buffer to the file
and the file being written to disk. -/
def Call.isWrite : Call → Bool
  | Call.editorSaveFile => true
  | Call.fileSave => true
  | _ => false

/-- The most recent call made on the editor. -/
def lastEditorCall (log : List Call) : Option Call :=
  log.find? Call.onEditor

/-- The calls `updateOutlineFromHtml` can make. -/
def Call.ofOutlineFromHtml : Call → Bool
  | Call.outlineClear => true
  | Call.outlineParseTableFromHtml _ => true
  | Call.outlineSetFile _ => true
  | Call.outlineSetType VTableOfContentType.Anchor => true
  | Call.emitOutlineChanged => true
  | _ => false

/-- The calls `showFileReadMode` can make. -/
def Call.ofReadView : Call → Bool
  | Call.documentSetHtml _ => true
  | Call.documentUpdateText => true
  | Call.documentScrollToAnchor _ => true
  | Call.stacksSetCurrentWidget Widget.webViewer => true
  | Call.webViewerFindText _ => true
  | Call.editorClearSearchedWordHighlight => true
  | Call.emitCurrentHeaderChanged _ => true
  | Call.updateStatus => true
  | c => c.ofOutlineFromHtml

/-- The calls `saveFile` can make. -/
def Call.ofSave : Call → Bool
  | Call.showMessage Icon.Warning _ _ _ => true
  | Call.qWarning => true
  | Call.editorSaveFile => true
  | Call.fileSave => true
  | Call.editorSetModified true => true
  | Call.updateStatus => true
  | _ => false

/-- The setter law of the editor's modified flag: whenever the most recent
call on the editor is `setModified(true)`, `isModified()` answers true. -/
def Env.keepsSetModified (env : Env) : Prop :=
  ∀ log, lastEditorCall log = some (Call.editorSetModified true) →
    env.editor_isModified log = true

/-- The setter law of the editor's content: whenever the most recent call on
the editor is `setContent(content, true)`, `getContent()` answers `content` and
`isModified()` answers true. -/
def Env.keepsSetContent (env : Env) : Prop :=
  ∀ log content, lastEditorCall log = some (Call.editorSetContent content true) →
    env.editor_getContent log = content ∧ env.editor_isModified log = true

/-! ## A sample note

A concrete behaviour of the collaborators, used to run the operations: the note
`a.md` is file 1, writable and on disk; the user has typed into the editor
before the log starts; the outline has two headers. -/

/-- The modified flag of the sample editor: set by the last of `setModified`,
`setContent`, `reloadFile` and `saveFile`; true before any of them. -/
def sampleIsModified : List Call → Bool
  | [] => true
  | Call.editorSetModified b :: _ => b
  | Call.editorSetContent _ b :: _ => b
  | Call.editorReloadFile :: _ => false
  | Call.editorSaveFile :: _ => false
  | _ :: log => sampleIsModified log

/-- The content of the sample editor. -/
def sampleContent : List Call → String
  | [] => "# A, edited"
  | Call.editorSetContent c _ :: _ => c
  | Call.editorReloadFile :: _ => "# A"
  | _ :: log => sampleContent log

/-- The type of the sample outline: the last type it was given, `Anchor` before. -/
def sampleOutlineType : List Call → VTableOfContentType
  | [] => VTableOfContentType.Anchor
  | Call.outlineSetType ty :: _ => ty
  | Call.outlineUpdate _ _ ty :: _ => ty
  | _ :: log => sampleOutlineType log

/-- The two headers of the sample outline. -/
def sampleItems : List VTableOfContentItem :=
  [VTableOfContentItem.mk "toc_0" 0, VTableOfContentItem.mk "toc_1" 4]

/-- The sample behaviour of the collaborators. -/
def sampleEnv : Env where
  file_isModifiable := fun _ => true
  file_fetchPath := fun _ => "/notes/a.md"
  file_getName := fun _ => "a.md"
  file_getContent := fun _ => "# A"
  file_save := fun _ => true
  file_backupFileOfPreviousSession := fun _ => "/notes/.a.md.vswp"
  file_readBackupFile := fun _ => "# A, backup"
  QFileInfo_exists := fun _ _ => true
  showMessage := fun _ => QMessageBox.Discard
  clickedButton := fun _ => some BackupButton.recoverBtn
  editor_isModified := sampleIsModified
  editor_getContent := sampleContent
  editor_scrollToHeader := fun _ => true
  outline_isMatched := fun _ p => p.m_file == some 1
  outline_getType := sampleOutlineType
  outline_getItem := fun _ p =>
    if p.m_file == some 1 && p.isValid then sampleItems.get? p.m_index.toNat else none
  outline_isEmpty := fun _ => false
  outline_parseTableFromHtml := fun _ => true
  document_getToc := fun _ => "<ul><li>toc_0</li><li>toc_1</li></ul>"
  generateHtml := fun content => (content, "<ul><li>toc_0</li><li>toc_1</li></ul>")
  header_reset := fun p => VHeaderPointer.mk p.m_file (-1)
  getSnippets := fun _ =>
    [VSnippet.mk "sig" 115 VSnippetType.PlainText, VSnippet.mk "date" 100 VSnippetType.PlainText,
     VSnippet.mk "plain" 0 VSnippetType.PlainText]
  snippet_apply := fun _ => true
  outline_indexOfItemByAnchor := fun _ anchor =>
    if anchor = "toc_0" then 0 else if anchor = "toc_1" then 1 else -1
  outline_indexOfItemByBlockNumber := fun _ blockNumber =>
    if blockNumber < 0 then -1 else if blockNumber < 4 then 0 else 1
  header_update := fun _ file index => VHeaderPointer.mk (some file) index
  tabInfo_clear := fun _ => VEditTabInfo.mk none (-1)
  webViewer_zoomFactor := fun _ => 1
  c_webZoomFactorMin := 1 / 4
  c_webZoomFactorMax := 5

/-- The sample tab, editing the note. -/
def sampleEditing : VMdTab where
  m_file := 1
  m_isEditMode := true
  m_editor := true
  m_webViewer := true
  m_currentHeader := VHeaderPointer.mk (some 1) 0
  m_fileDiverged := false
  m_checkFileChange := true
  m_mdConType := MarkdownConverterType.other 2
  m_enableHeadingSequence := false
  m_enableBackupFile := true
  m_backupFileChecked := false
  log := []
  thisTab := 10
  m_infoToRestore := VEditTabInfo.mk (some 10) 1

/-- The sample tab, reading the note, with no editor created yet. -/
def sampleReading : VMdTab :=
  { sampleEditing with m_isEditMode := false, m_editor := false }

/-- The sample behaviour, with a disk that refuses the write. -/
def sampleEnvWriteFails : Env :=
  { sampleEnv with file_save := fun _ => false }

/-- The outline type a call gives to the outline, if it gives one:
`setType(type)` and `update(file, headers, type)` do. -/
def Call.setsOutlineType : Call → Option VTableOfContentType
  | Call.outlineSetType ty => some ty
  | Call.outlineUpdate _ _ ty => some ty
  | _ => none

/-- The calls that scroll the web view or the editor. -/
def Call.isScroll : Call → Bool
  | Call.documentScrollToAnchor _ => true
  | Call.editorScrollToHeader _ => true
  | _ => false

/-- The state of `checkPreviousBackupFile` when its message box is up: the
check is marked as done, the backup file has been read and the box is shown. -/
def backupBoxShown (env : Env) (t : VMdTab) : VMdTab :=
  let t := { t with m_backupFileChecked := true }
  let preFile := env.file_backupFileOfPreviousSession t.log
  let t := t.call (Call.fileReadBackupFile preFile)
  t.call (Call.backupBoxExec preFile (env.file_fetchPath t.log)
    (env.file_getContent t.log == env.file_readBackupFile t.log))

/-- The content that `checkPreviousBackupFile` reads from the backup file. -/
def backupContentRead (env : Env) (t : VMdTab) : String :=
  env.file_readBackupFile
    (Call.fileReadBackupFile (env.file_backupFileOfPreviousSession t.log) :: t.log)

/-- The calls that delete a file. -/
def Call.isDelete : Call → Bool
  | Call.deleteFile _ => true
  | _ => false

/-! ## Operations on the current header, snippets, readiness and zoom -/

/-- The overload `VMdTab::updateCurrentHeader(const QString &p_anchor)`. -/
def updateCurrentHeader_QString (env : Env) (t : VMdTab) (p_anchor : String) : VMdTab :=
  if t.m_isEditMode then
    t
  else
    let idx := env.outline_indexOfItemByAnchor t.log p_anchor
    let t := { t with m_currentHeader := env.header_update t.m_currentHeader t.m_file idx }
    t.call (Call.emitCurrentHeaderChanged t.m_currentHeader)

/-- The overload `VMdTab::updateCurrentHeader(int p_blockNumber)`. -/
def updateCurrentHeader_int (env : Env) (t : VMdTab) (p_blockNumber : Int) : VMdTab :=
  if !t.m_isEditMode then
    t
  else
    let idx := env.outline_indexOfItemByBlockNumber t.log p_blockNumber
    let t := { t with m_currentHeader := env.header_update t.m_currentHeader t.m_file idx }
    t.call (Call.emitCurrentHeaderChanged t.m_currentHeader)

/-- The law of `VHeaderPointer::update`: the pointer becomes the given file and
the given index. -/
def Env.updatesHeader (env : Env) : Prop :=
  ∀ p file index, env.header_update p file index = VHeaderPointer.mk (some file) index

/-- The overload `VMdTab::applySnippet(const VSnippet *p_snippet)`.
`isEditMode()` is the getter of `m_isEditMode` in the base class; the cursor
handed to `apply` is a copy of the editor's cursor. -/
def applySnippet (env : Env) (t : VMdTab) (p_snippet : VSnippet) : VMdTab :=
  if t.m_isEditMode && env.file_isModifiable t.log
      && p_snippet.m_type == VSnippetType.PlainText then
    let t := t.call (Call.snippetApply p_snippet.m_name)
    let changed := env.snippet_apply t.log
    if changed then
      let t := t.call Call.editorSetTextCursor
      let t := t.call (Call.editorSetVimMode VimMode.Insert)
      let t := t.call (Call.showStatusMessage StatusMessage.snippetApplied)
      t.call Call.focusTab
    else
      t
  else
    t.call (Call.showStatusMessage (StatusMessage.snippetNotApplicable p_snippet.m_name))

/-- The overload `VMdTab::restoreFromTabInfo(const VEditTabInfo &p_info)`. -/
def restoreFromTabInfo (env : Env) (t : VMdTab) (p_info : VEditTabInfo) : Bool × VMdTab :=
  if p_info.m_editTab != some t.thisTab then
    (false, t)
  else
    let header := VHeaderPointer.mk (some t.m_file) p_info.m_headerIndex
    scrollToHeaderInternal env t header

/-- The overload `VMdTab::restoreFromTabInfo()`: restore from `m_infoToRestore`
and clear it. -/
def restoreFromTabInfo_void (env : Env) (t : VMdTab) : VMdTab :=
  let t := (restoreFromTabInfo env t t.m_infoToRestore).2
  { t with m_infoToRestore := env.tabInfo_clear t.m_infoToRestore }

/-- The end of `tabIsReady`: connect the document's `contentsChange` to the
restart of the backup timer. -/
def tabIsReadyConnect (env : Env) (t : VMdTab) (p_mode : TabReady) : VMdTab :=
  if t.m_enableBackupFile && env.file_isModifiable t.log && p_mode == TabReady.EditMode then
    t.call (Call.connect Connection.contentsChange)
  else
    t

/-- Whether `p_mode` is the mode the tab is in, `isCurrentMode` in `tabIsReady`. -/
def isCurrentMode (t : VMdTab) (p_mode : TabReady) : Bool :=
  (t.m_isEditMode && p_mode == TabReady.EditMode)
    || (!t.m_isEditMode && p_mode == TabReady.ReadMode)

/-- The method `VMdTab::tabIsReady`. -/
def tabIsReady (env : Env) (t : VMdTab) (p_mode : TabReady) : VMdTab :=
  if isCurrentMode t p_mode then
    let t := restoreFromTabInfo_void env t
    if t.m_enableBackupFile && !t.m_backupFileChecked && env.file_isModifiable t.log then
      let r := checkPreviousBackupFile env t
      if !r.1 then
        r.2
      else
        tabIsReadyConnect env r.2 p_mode
    else
      tabIsReadyConnect env t p_mode
  else
    tabIsReadyConnect env t p_mode

/-- A run of `tabIsReady` calls, one for each mode of the list, in order. -/
def tabIsReadyAll (env : Env) (t : VMdTab) (modes : List TabReady) : VMdTab :=
  modes.foldl (tabIsReady env) t

/-- The method `VMdTab::zoomWebPage`, over the rationals. -/
def zoomWebPage (env : Env) (t : VMdTab) (p_zoomIn : Bool) (p_step : ℚ) : VMdTab :=
  let curFactor := env.webViewer_zoomFactor t.log
  let newFactor := if p_zoomIn then curFactor + p_step else curFactor - p_step
  let newFactor :=
    if newFactor < env.c_webZoomFactorMin then
      env.c_webZoomFactorMin
    else if newFactor > env.c_webZoomFactorMax then
      env.c_webZoomFactorMax
    else
      newFactor
  t.call (Call.webViewerSetZoomFactor newFactor)

/-- The box of `checkPreviousBackupFile` being shown. -/
def Call.isBackupPrompt : Call → Bool
  | Call.backupBoxExec _ _ _ => true
  | _ => false

/-- The calls `setupMarkdownEditor` can make. -/
def Call.ofEditorSetup : Call → Bool
  | Call.editorNew => true
  | Call.editorSetProperty => true
  | Call.connect c => decide (c ∈ editorConnections)
  | Call.editorSetHeadingSequence _ => true
  | Call.editorReloadFile => true
  | Call.stacksAddWidget Widget.editor => true
  | _ => false

/-- The calls `restoreFromTabInfo` and `checkPreviousBackupFile` can make,
other than showing the box about the backup file. -/
def Call.ofViewChange : Call → Bool
  | Call.stacksSetCurrentWidget Widget.editor => true
  | Call.editorBeginEdit => true
  | Call.qDebug => true
  | Call.sleepWait _ => true
  | Call.editorScrollToHeader _ => true
  | Call.editorSetFocus => true
  | Call.documentScrollToAnchor _ => true
  | Call.emitCurrentHeaderChanged _ => true
  | Call.fileReadBackupFile _ => true
  | Call.editorSetContent _ _ => true
  | Call.updateStatus => true
  | Call.deleteFile _ => true
  | Call.emitCloseRequested => true
  | c => c.ofEditorSetup

/-- The calls that apply a snippet. -/
def Call.isSnippetApply : Call → Bool
  | Call.snippetApply _ => true
  | _ => false

/-- The end of `scrollEditorToHeader`: the editor `ed` is asked to scroll to
`blockNumber`; if it does, the header pointer becomes the current header. -/
def scrollEditorTo (env : Env) (ed : VMdTab) (p_header : VHeaderPointer) (blockNumber : Int) :
    Bool × VMdTab :=
  let t := ed.call (Call.editorScrollToHeader blockNumber)
  if env.editor_scrollToHeader t.log then
    (true, { t with m_currentHeader := p_header })
  else
    (false, t)

/-- The sample tab, editing the note, after the editor has reported its two
headers: the outline has type `BlockNumber`. -/
def sampleEditingWithHeaders : VMdTab :=
  updateOutlineFromHeaders sampleEnv sampleEditing sampleItems

/-- The two members that steer the check for a backup file. -/
def VMdTab.backupSettings (t : VMdTab) : Bool × Bool :=
  (t.m_enableBackupFile, t.m_backupFileChecked)

/-- The number of times the box about a backup file is shown in a list of calls. -/
def promptCount (calls : List Call) : Nat :=
  calls.countP Call.isBackupPrompt

/-- The sample behaviour, with a user who cancels the box about the backup
file. -/
def sampleEnvCancel : Env :=
  { sampleEnv with clickedButton := fun _ => some BackupButton.cancelBtn }

/-! ## Lemmas about the log -/

theorem Adds.trans {P : Call → Prop} {l m r : List Call}
    (h₁ : Adds P l m) (h₂ : Adds P m r) : Adds P l r := by
  induction h₂ with
  | refl => exact h₁
  | cons hc _ ih => exact Adds.cons hc ih

theorem Adds.mono {P Q : Call → Prop} {l r : List Call}
    (hPQ : ∀ c, P c → Q c) (h : Adds P l r) : Adds Q l r := by
  induction h with
  | refl => exact Adds.refl
  | cons hc _ ih => exact Adds.cons (hPQ _ hc) ih

theorem Adds.exists_append {P : Call → Prop} {l r : List Call} (h : Adds P l r) :
    ∃ added, r = added ++ l ∧ ∀ c ∈ added, P c := by
  induction h with
  | refl => exact ⟨[], rfl, by simp⟩
  | cons hc _ ih =>
    obtain ⟨added, rfl, hall⟩ := ih
    refine ⟨_ :: added, rfl, ?_⟩
    intro c hmem
    rcases List.mem_cons.mp hmem with rfl | hmem
    · exact hc
    · exact hall c hmem

theorem newCalls_of_log_eq {t t' : VMdTab} {added : List Call}
    (h : t'.log = added ++ t.log) : newCalls t t' = added := by
  simp [newCalls, h]

theorem Adds.newCalls {P : Call → Prop} {t t' : VMdTab} (h : Adds P t.log t'.log) :
    ∀ c ∈ newCalls t t', P c := by
  obtain ⟨added, hlog, hall⟩ := h.exists_append
  rw [newCalls_of_log_eq hlog]
  exact hall

theorem newCalls_self (t : VMdTab) : newCalls t t = [] := by
  simp [newCalls]

theorem Adds.call {P : Call → Prop} {l : List Call} {t : VMdTab} {c : Call}
    (h : Adds P l t.log) (hc : P c) : Adds P l (t.call c).log :=
  Adds.cons hc h

/-! ## What the operations keep -/

theorem updateOutlineFromHtml_isEditMode (env : Env) (t : VMdTab) (html : String) :
    (updateOutlineFromHtml env t html).m_isEditMode = t.m_isEditMode := by
  unfold updateOutlineFromHtml
  split
  · rfl
  · simp only [VMdTab.call]
    split <;> rfl

theorem updateOutlineFromHtml_editor (env : Env) (t : VMdTab) (html : String) :
    (updateOutlineFromHtml env t html).m_editor = t.m_editor := by
  unfold updateOutlineFromHtml
  split
  · rfl
  · simp only [VMdTab.call]
    split <;> rfl

theorem updateOutlineFromHtml_adds (env : Env) (t : VMdTab) (html : String) :
    Adds (fun c => c.ofOutlineFromHtml = true) t.log (updateOutlineFromHtml env t html).log := by
  unfold updateOutlineFromHtml
  split
  · exact Adds.refl
  · simp only [VMdTab.call]
    split <;> repeat (first | exact Adds.refl | refine Adds.cons rfl ?_)

theorem scrollWebViewToHeader_isEditMode (env : Env) (t : VMdTab) (h : VHeaderPointer) :
    (scrollWebViewToHeader env t h).2.m_isEditMode = t.m_isEditMode := by
  unfold scrollWebViewToHeader
  repeat' split
  all_goals rfl

theorem scrollWebViewToHeader_adds (env : Env) (t : VMdTab) (h : VHeaderPointer) :
    Adds (fun c => c.ofReadView = true) t.log (scrollWebViewToHeader env t h).2.log := by
  unfold scrollWebViewToHeader
  repeat' split
  all_goals simp only [VMdTab.call]
  all_goals repeat (first | exact Adds.refl | refine Adds.cons rfl ?_)

theorem ofOutlineFromHtml_ofReadView (c : Call) (hc : c.ofOutlineFromHtml = true) :
    c.ofReadView = true := by
  cases c <;> simp_all [Call.ofReadView, Call.ofOutlineFromHtml]

theorem clearSearchedWordHighlight_isEditMode (t : VMdTab) :
    (clearSearchedWordHighlight t).m_isEditMode = t.m_isEditMode := by
  unfold clearSearchedWordHighlight
  dsimp only
  repeat' split
  all_goals rfl

theorem clearSearchedWordHighlight_adds (t : VMdTab) :
    Adds (fun c => c.ofReadView = true) t.log (clearSearchedWordHighlight t).log := by
  unfold clearSearchedWordHighlight
  dsimp only
  repeat' split
  all_goals repeat (first | exact Adds.refl | refine Adds.call ?_ rfl)

theorem viewWebByConverter_isEditMode (env : Env) (t : VMdTab) :
    (viewWebByConverter env t).m_isEditMode = t.m_isEditMode := by
  unfold viewWebByConverter
  exact updateOutlineFromHtml_isEditMode env _ _

theorem viewWebByConverter_adds (env : Env) (t : VMdTab) :
    Adds (fun c => c.ofReadView = true) t.log (viewWebByConverter env t).log := by
  unfold viewWebByConverter
  refine Adds.trans ?_ ((updateOutlineFromHtml_adds env _ _).mono ofOutlineFromHtml_ofReadView)
  exact Adds.call Adds.refl rfl

theorem showFileReadMode_isEditMode (env : Env) (t : VMdTab) :
    (showFileReadMode env t).m_isEditMode = false := by
  unfold showFileReadMode updateStatus
  show (scrollWebViewToHeader env _ _).2.m_isEditMode = false
  rw [scrollWebViewToHeader_isEditMode, clearSearchedWordHighlight_isEditMode]
  show VMdTab.m_isEditMode (ite _ _ _) = false
  split
  · rw [viewWebByConverter_isEditMode]
  · rw [updateOutlineFromHtml_isEditMode]
    rfl

theorem showFileReadMode_adds (env : Env) (t : VMdTab) :
    Adds (fun c => c.ofReadView = true) t.log (showFileReadMode env t).log := by
  unfold showFileReadMode updateStatus
  refine Adds.call ?_ rfl
  refine Adds.trans ?_ (scrollWebViewToHeader_adds env _ _)
  refine Adds.trans ?_ (clearSearchedWordHighlight_adds _)
  refine Adds.call ?_ rfl
  split
  · exact viewWebByConverter_adds env { t with m_isEditMode := false }
  · refine Adds.trans ?_ ((updateOutlineFromHtml_adds env _ _).mono ofOutlineFromHtml_ofReadView)
    exact Adds.call (t := { t with m_isEditMode := false }) Adds.refl rfl

theorem saveFile_isEditMode (env : Env) (t : VMdTab) :
    (saveFile env t).2.m_isEditMode = t.m_isEditMode := by
  unfold saveFile updateStatus
  dsimp only
  repeat' split
  all_goals rfl

theorem saveFile_editor (env : Env) (t : VMdTab) :
    (saveFile env t).2.m_editor = t.m_editor := by
  unfold saveFile updateStatus
  dsimp only
  repeat' split
  all_goals rfl

theorem saveFile_adds (env : Env) (t : VMdTab) :
    Adds (fun c => c.ofSave = true) t.log (saveFile env t).2.log := by
  unfold saveFile updateStatus
  dsimp only
  repeat' split
  all_goals repeat (first | exact Adds.refl | refine Adds.call ?_ rfl)

theorem readFileFinish_isEditMode (env : Env) (t : VMdTab) :
    (readFileFinish env t).m_isEditMode = false := by
  unfold readFileFinish
  exact showFileReadMode_isEditMode env _

theorem readFileFinish_adds (env : Env) (t : VMdTab) :
    Adds (fun c => c.ofReadView = true ∨ c = Call.editorEndEdit) t.log
      (readFileFinish env t).log := by
  unfold readFileFinish
  refine Adds.trans ?_ ((showFileReadMode_adds env _).mono (fun _ h => Or.inl h))
  dsimp only
  split
  · exact Adds.call Adds.refl (Or.inr rfl)
  · exact Adds.refl

theorem newCalls_trans {P Q : Call → Prop} {t m t' : VMdTab}
    (h₁ : Adds P t.log m.log) (h₂ : Adds Q m.log t'.log) :
    newCalls t t' = newCalls m t' ++ newCalls t m := by
  obtain ⟨a, ha, _⟩ := h₁.exists_append
  obtain ⟨b, hb, _⟩ := h₂.exists_append
  rw [newCalls_of_log_eq ha, newCalls_of_log_eq hb]
  exact newCalls_of_log_eq (by rw [hb, ha, List.append_assoc])

theorem newCalls_call_call (t : VMdTab) (c d : Call) :
    newCalls t ((t.call c).call d) = [d, c] :=
  newCalls_of_log_eq rfl

theorem newCalls_call (t : VMdTab) (c : Call) : newCalls t (t.call c) = [c] :=
  newCalls_of_log_eq rfl

/-- C1. In edit mode with unsaved changes, `readFile` asks the user; it reloads
the editor from the file and switches to read mode exactly when the user chose
Discard, or chose Save and `saveFile` returned true.  After Cancel, any other
answer, or Save with a failed `saveFile`, the tab is still in edit mode and
neither `reloadFile` nor `endEdit` was called on the editor. -/
theorem readFile_needs_consent (env : Env) (t : VMdTab)
    (hedit : t.m_isEditMode = true) (heditor : t.m_editor = true)
    (hmod : isModified env t = true) :
    let asked := t.call (readFilePrompt env t)
    let ret := env.showMessage asked.log
    let saved := (saveFile env asked).1
    let t' := readFile env t
    let consent := ret = QMessageBox.Discard ∨ (ret = QMessageBox.Save ∧ saved = true)
    readFilePrompt env t ∈ newCalls t t'
    ∧ (consent → Call.editorReloadFile ∈ newCalls t t' ∧ t'.m_isEditMode = false)
    ∧ ((Call.editorReloadFile ∈ newCalls t t' ∨ t'.m_isEditMode = false) → consent)
    ∧ (¬ consent → t'.m_isEditMode = true ∧ Call.editorReloadFile ∉ newCalls t t'
        ∧ Call.editorEndEdit ∉ newCalls t t') := by
  intro asked ret saved t' consent
  have hasked : Adds (fun _ => True) t.log asked.log := Adds.call Adds.refl trivial
  have hnew : newCalls t asked = [readFilePrompt env t] := newCalls_call _ _
  have hpne₁ : readFilePrompt env t ≠ Call.editorReloadFile := by simp [readFilePrompt]
  have hpne₂ : readFilePrompt env t ≠ Call.editorEndEdit := by simp [readFilePrompt]
  -- the two ways to the read view, and the three ways to stay
  have hfinish : ∀ m : VMdTab, Adds (fun c => c.ofSave = true) asked.log m.log →
      t' = readFileFinish env (m.call Call.editorReloadFile) →
      readFilePrompt env t ∈ newCalls t t' ∧ Call.editorReloadFile ∈ newCalls t t'
        ∧ t'.m_isEditMode = false := by
    intro m hm ht'
    have h₁ : Adds (fun _ => True) t.log (m.call Call.editorReloadFile).log :=
      Adds.call (hasked.trans (hm.mono (fun _ _ => trivial))) trivial
    have h₂ := newCalls_trans h₁ (readFileFinish_adds env (m.call Call.editorReloadFile))
    have h₃ : newCalls t (m.call Call.editorReloadFile)
        = Call.editorReloadFile :: (newCalls asked m ++ [readFilePrompt env t]) := by
      obtain ⟨a, ha, _⟩ := hm.exists_append
      rw [newCalls_of_log_eq ha]
      exact newCalls_of_log_eq (by simp [VMdTab.call, ha, asked])
    rw [ht', h₂, h₃]
    exact ⟨by simp, by simp, readFileFinish_isEditMode env _⟩
  have hstay : ∀ m : VMdTab, Adds (fun c => c.ofSave = true ∨ c = Call.qWarning) asked.log m.log →
      m.m_isEditMode = true → t' = m →
      readFilePrompt env t ∈ newCalls t t' ∧ t'.m_isEditMode = true
        ∧ Call.editorReloadFile ∉ newCalls t t' ∧ Call.editorEndEdit ∉ newCalls t t' := by
    intro m hm hmode ht'
    have h₂ := newCalls_trans hasked hm
    have hall := hm.newCalls
    rw [ht', h₂, hnew]
    refine ⟨by simp, hmode, ?_, ?_⟩
    · intro hmem
      rcases List.mem_append.mp hmem with h | h
      · rcases hall _ h with h | h <;> simp [Call.ofSave] at h
      · exact hpne₁ (List.mem_singleton.mp h).symm
    · intro hmem
      rcases List.mem_append.mp hmem with h | h
      · rcases hall _ h with h | h <;> simp [Call.ofSave] at h
      · exact hpne₂ (List.mem_singleton.mp h).symm
  have hunfold : t' = (if ret = QMessageBox.Save then
        (if !saved then (saveFile env asked).2
          else readFileFinish env ((saveFile env asked).2.call Call.editorReloadFile))
      else if ret = QMessageBox.Discard then readFileFinish env (asked.call Call.editorReloadFile)
      else if ret = QMessageBox.Cancel then asked
      else asked.call Call.qWarning) := by
    show readFile env t = _
    unfold readFile
    simp only [hedit, heditor, hmod]
    rfl
  have hSD : QMessageBox.Save ≠ QMessageBox.Discard := by decide
  by_cases hS : ret = QMessageBox.Save
  · by_cases hsv : saved = true
    · have ht' : t' = readFileFinish env ((saveFile env asked).2.call Call.editorReloadFile) := by
        rw [hunfold, if_pos hS]
        have : (saveFile env asked).1 = true := hsv
        simp [saved, this]
      obtain ⟨h1, h2, h3⟩ := hfinish _ (saveFile_adds env asked) ht'
      have hc : consent := Or.inr ⟨hS, hsv⟩
      exact ⟨h1, fun _ => ⟨h2, h3⟩, fun _ => hc, fun hn => absurd hc hn⟩
    · have ht' : t' = (saveFile env asked).2 := by
        rw [hunfold, if_pos hS]
        have : (saveFile env asked).1 = false := by simpa [saved] using hsv
        simp [saved, this]
      have hmode : (saveFile env asked).2.m_isEditMode = true := by
        rw [saveFile_isEditMode]; exact hedit
      obtain ⟨h1, h2, h3, h4⟩ :=
        hstay _ ((saveFile_adds env asked).mono (fun _ h => Or.inl h)) hmode ht'
      have hc : ¬ consent := by
        rintro (h | ⟨_, h⟩)
        · exact hSD (hS.symm.trans h)
        · exact hsv h
      refine ⟨h1, fun h => absurd h hc, ?_, fun _ => ⟨h2, h3, h4⟩⟩
      rintro (h | h)
      · exact absurd h h3
      · rw [h2] at h; cases h
  · by_cases hD : ret = QMessageBox.Discard
    · have ht' : t' = readFileFinish env (asked.call Call.editorReloadFile) := by
        rw [hunfold, if_neg hS, if_pos hD]
      obtain ⟨h1, h2, h3⟩ := hfinish asked Adds.refl ht'
      have hc : consent := Or.inl hD
      exact ⟨h1, fun _ => ⟨h2, h3⟩, fun _ => hc, fun hn => absurd hc hn⟩
    · have hc : ¬ consent := by
        rintro (h | ⟨h, _⟩)
        · exact hD h
        · exact hS h
      have key : readFilePrompt env t ∈ newCalls t t' ∧ t'.m_isEditMode = true
          ∧ Call.editorReloadFile ∉ newCalls t t' ∧ Call.editorEndEdit ∉ newCalls t t' := by
        by_cases hC : ret = QMessageBox.Cancel
        · exact hstay asked Adds.refl hedit (by rw [hunfold, if_neg hS, if_neg hD, if_pos hC])
        · exact hstay (asked.call Call.qWarning) (Adds.call Adds.refl (Or.inr rfl)) hedit
            (by rw [hunfold, if_neg hS, if_neg hD, if_neg hC])
      obtain ⟨h1, h2, h3, h4⟩ := key
      refine ⟨h1, fun h => absurd h hc, ?_, fun _ => ⟨h2, h3, h4⟩⟩
      rintro (h | h)
      · exact absurd h h3
      · rw [h2] at h; cases h

theorem saveFile_write_failed (env : Env) (t : VMdTab)
    (hmode : t.m_isEditMode = true) (hmod : isModified env t = true)
    (hro : env.file_isModifiable t.log = true)
    (hex : env.QFileInfo_exists t.log (env.file_fetchPath t.log) = true)
    (hsv : env.file_save ((t.call Call.editorSaveFile).call Call.fileSave).log = false) :
    saveFile env t = (false, updateStatus
      ((((t.call Call.editorSaveFile).call Call.fileSave).call
        (Call.showMessage Icon.Warning Message.writeFailed [QMessageBox.Ok] QMessageBox.Ok)).call
        (Call.editorSetModified true))) := by
  unfold saveFile
  simp [hmode, hmod, hro, hex, hsv]

theorem saveFile_written (env : Env) (t : VMdTab)
    (hmode : t.m_isEditMode = true) (hmod : isModified env t = true)
    (hro : env.file_isModifiable t.log = true)
    (hex : env.QFileInfo_exists t.log (env.file_fetchPath t.log) = true)
    (hsv : env.file_save ((t.call Call.editorSaveFile).call Call.fileSave).log = true) :
    saveFile env t = (true, updateStatus
      { (t.call Call.editorSaveFile).call Call.fileSave with
        m_fileDiverged := false, m_checkFileChange := true }) := by
  unfold saveFile
  simp [hmode, hmod, hro, hex, hsv]

theorem ofReadView_quiet (c : Call) (hc : c.ofReadView = true) :
    c.isPrompt = false ∧ c.isWrite = false := by
  cases c <;> simp_all [Call.ofReadView, Call.ofOutlineFromHtml, Call.isPrompt, Call.isWrite]

/-- C2. `closeFile` returns true exactly when the tab is in read mode after the
call.  `closeFile(true)` returns true from every state; started in read mode it
changes nothing, and started in edit mode its first two calls are the editor's
`reloadFile` and `endEdit`, and none of its calls is a dialog, the editor's
`saveFile` or the file's `save`. -/
theorem closeFile_returns_read_mode (env : Env) (t : VMdTab) (p_forced : Bool) :
    ((closeFile env t p_forced).1 = true ↔ (closeFile env t p_forced).2.m_isEditMode = false)
    ∧ (closeFile env t true).1 = true
    ∧ (t.m_isEditMode = false → closeFile env t true = (true, t))
    ∧ (t.m_isEditMode = true →
        (∃ later, (closeFile env t true).2.log
            = later ++ [Call.editorEndEdit, Call.editorReloadFile] ++ t.log)
        ∧ ∀ c ∈ newCalls t (closeFile env t true).2, c.isPrompt = false ∧ c.isWrite = false) := by
  refine ⟨?_, ?_, ?_, ?_⟩
  · unfold closeFile
    simp
  · unfold closeFile
    cases hmode : t.m_isEditMode
    · simp [hmode, readFile]
    · simp [hmode, showFileReadMode_isEditMode]
  · intro hmode
    unfold closeFile
    simp [hmode, readFile]
  · intro hmode
    have hcl : (closeFile env t true).2
        = showFileReadMode env ((t.call Call.editorReloadFile).call Call.editorEndEdit) := by
      unfold closeFile
      simp [hmode]
    have hadds := showFileReadMode_adds env ((t.call Call.editorReloadFile).call Call.editorEndEdit)
    rw [hcl]
    constructor
    · obtain ⟨later, hlater, _⟩ := hadds.exists_append
      exact ⟨later, by rw [hlater]; simp [VMdTab.call]⟩
    · have h₁ : Adds (fun c => c.isPrompt = false ∧ c.isWrite = false) t.log
          ((t.call Call.editorReloadFile).call Call.editorEndEdit).log :=
        Adds.call (Adds.call Adds.refl ⟨rfl, rfl⟩) ⟨rfl, rfl⟩
      exact (h₁.trans (hadds.mono ofReadView_quiet)).newCalls

/-- C3. `saveFile` calls the editor's `saveFile` or the file's `save` only in
edit mode with `isModified()` true, a modifiable file and an existing path, and
then these are its first two calls, in this order.  In read mode, or when
`isModified()` is false, it returns true and leaves the state as it was.  In
edit mode with changes, a read-only file or a removed path makes it return
false without either call. -/
theorem saveFile_writes_only_when_due (env : Env) (t : VMdTab) :
    let due := t.m_isEditMode = true ∧ isModified env t = true
      ∧ env.file_isModifiable t.log = true
      ∧ env.QFileInfo_exists t.log (env.file_fetchPath t.log) = true
    ((∃ c ∈ newCalls t (saveFile env t).2, c.isWrite = true) → due)
    ∧ (due → ∃ later, (saveFile env t).2.log
          = later ++ [Call.fileSave, Call.editorSaveFile] ++ t.log)
    ∧ (t.m_isEditMode = false ∨ isModified env t = false → saveFile env t = (true, t))
    ∧ (t.m_isEditMode = true → isModified env t = true →
        env.file_isModifiable t.log = false
          ∨ env.QFileInfo_exists t.log (env.file_fetchPath t.log) = false →
        (saveFile env t).1 = false ∧ ∀ c ∈ newCalls t (saveFile env t).2, c.isWrite = false) := by
  intro due
  have hquiet : t.m_isEditMode = false ∨ isModified env t = false → saveFile env t = (true, t) := by
    intro h
    unfold saveFile
    rcases h with h | h
    · simp [h]
    · cases hm : t.m_isEditMode <;> simp [h]
  have hrefuse : t.m_isEditMode = true → isModified env t = true →
      env.file_isModifiable t.log = false
        ∨ env.QFileInfo_exists t.log (env.file_fetchPath t.log) = false →
      (saveFile env t).1 = false ∧ ∀ c ∈ newCalls t (saveFile env t).2, c.isWrite = false := by
    intro hmode hmod h
    cases hro : env.file_isModifiable t.log
    · have hs : saveFile env t = (false, t.call (Call.showMessage Icon.Warning
          (Message.readOnlyNote (env.file_fetchPath t.log)) [QMessageBox.Ok] QMessageBox.Ok)) := by
        unfold saveFile
        simp [hmode, hmod, hro]
      rw [hs]
      refine ⟨rfl, ?_⟩
      rw [newCalls_call]
      simp [Call.isWrite]
    · have hex : env.QFileInfo_exists t.log (env.file_fetchPath t.log) = false := by
        rcases h with h | h
        · rw [hro] at h; cases h
        · exact h
      have hs : saveFile env t = (false, updateStatus ((t.call Call.qWarning).call
          (Call.showMessage Icon.Warning (Message.fileRemoved (env.file_fetchPath t.log))
            [QMessageBox.Ok] QMessageBox.Ok))) := by
        unfold saveFile
        simp [hmode, hmod, hro, hex, VMdTab.call]
      rw [hs]
      refine ⟨rfl, ?_⟩
      have : newCalls t (updateStatus ((t.call Call.qWarning).call
          (Call.showMessage Icon.Warning (Message.fileRemoved (env.file_fetchPath t.log))
            [QMessageBox.Ok] QMessageBox.Ok)))
          = [Call.updateStatus, Call.showMessage Icon.Warning
              (Message.fileRemoved (env.file_fetchPath t.log)) [QMessageBox.Ok] QMessageBox.Ok,
              Call.qWarning] := newCalls_of_log_eq rfl
      rw [this]
      simp [Call.isWrite]
  refine ⟨?_, ?_, hquiet, hrefuse⟩
  · rintro ⟨c, hc, hw⟩
    by_contra hdue
    have hno : ∀ c ∈ newCalls t (saveFile env t).2, c.isWrite = false := by
      cases hmode : t.m_isEditMode
      · rw [hquiet (Or.inl hmode)]
        simp [newCalls_self]
      · cases hmod : isModified env t
        · rw [hquiet (Or.inr hmod)]
          simp [newCalls_self]
        · refine (hrefuse hmode hmod ?_).2
          cases hro : env.file_isModifiable t.log
          · exact Or.inl rfl
          · cases hex : env.QFileInfo_exists t.log (env.file_fetchPath t.log)
            · exact Or.inr rfl
            · exact absurd ⟨hmode, hmod, hro, hex⟩ hdue
    rw [hno c hc] at hw
    cases hw
  · rintro ⟨hmode, hmod, hro, hex⟩
    cases hsv : env.file_save ((t.call Call.editorSaveFile).call Call.fileSave).log
    · rw [saveFile_write_failed env t hmode hmod hro hex hsv]
      exact ⟨[Call.updateStatus, Call.editorSetModified true, Call.showMessage Icon.Warning
        Message.writeFailed [QMessageBox.Ok] QMessageBox.Ok], rfl⟩
    · rw [saveFile_written env t hmode hmod hro hex hsv]
      exact ⟨[Call.updateStatus], rfl⟩

/-- C1, run on the sample note: the user answers Discard, the editor is
reloaded and the tab ends in read mode. -/
theorem readFile_needs_consent_witness :
    sampleEditing.m_isEditMode = true ∧ sampleEditing.m_editor = true
    ∧ isModified sampleEnv sampleEditing = true
    ∧ Call.editorReloadFile ∈ newCalls sampleEditing (readFile sampleEnv sampleEditing)
    ∧ (readFile sampleEnv sampleEditing).m_isEditMode = false :=
  ⟨rfl, rfl, rfl, (readFile_needs_consent sampleEnv sampleEditing rfl rfl rfl).2.1 (Or.inl rfl)⟩

/-- C2, run on the sample note: a forced close of the tab that is editing. -/
theorem closeFile_returns_read_mode_witness :
    sampleEditing.m_isEditMode = true
    ∧ (closeFile sampleEnv sampleEditing true).1 = true
    ∧ ∀ c ∈ newCalls sampleEditing (closeFile sampleEnv sampleEditing true).2,
        c.isPrompt = false ∧ c.isWrite = false :=
  ⟨rfl, (closeFile_returns_read_mode sampleEnv sampleEditing true).2.1,
    ((closeFile_returns_read_mode sampleEnv sampleEditing true).2.2.2 rfl).2⟩

/-- C3, run on the sample note: the save is due and both writes happen. -/
theorem saveFile_writes_only_when_due_witness :
    (sampleEditing.m_isEditMode = true ∧ isModified sampleEnv sampleEditing = true
      ∧ sampleEnv.file_isModifiable sampleEditing.log = true
      ∧ sampleEnv.QFileInfo_exists sampleEditing.log
          (sampleEnv.file_fetchPath sampleEditing.log) = true)
    ∧ ∃ later, (saveFile sampleEnv sampleEditing).2.log
        = later ++ [Call.fileSave, Call.editorSaveFile] ++ sampleEditing.log :=
  ⟨⟨rfl, rfl, rfl, rfl⟩,
    (saveFile_writes_only_when_due sampleEnv sampleEditing).2.1 ⟨rfl, rfl, rfl, rfl⟩⟩

/-- C4. When `saveFile` reaches the write and `m_file->save()` fails, it
returns false, its last call on the editor is `setModified(true)`, so that
`isModified()` is true afterwards for an editor that keeps the flag it is
given, and `m_fileDiverged` and `m_checkFileChange` are unchanged.  When
`m_file->save()` succeeds it returns true with `m_fileDiverged` false and
`m_checkFileChange` true. -/
theorem saveFile_write_outcome (env : Env) (t : VMdTab)
    (hmode : t.m_isEditMode = true) (hmod : isModified env t = true)
    (hro : env.file_isModifiable t.log = true)
    (hex : env.QFileInfo_exists t.log (env.file_fetchPath t.log) = true) :
    let written := env.file_save ((t.call Call.editorSaveFile).call Call.fileSave).log
    let r := saveFile env t
    (written = false →
        r.1 = false
        ∧ lastEditorCall r.2.log = some (Call.editorSetModified true)
        ∧ (env.keepsSetModified → isModified env r.2 = true)
        ∧ r.2.m_fileDiverged = t.m_fileDiverged
        ∧ r.2.m_checkFileChange = t.m_checkFileChange)
    ∧ (written = true →
        r.1 = true ∧ r.2.m_fileDiverged = false ∧ r.2.m_checkFileChange = true) := by
  dsimp only
  constructor
  · intro hsv
    rw [saveFile_write_failed env t hmode hmod hro hex hsv]
    have hlast : lastEditorCall (updateStatus
        ((((t.call Call.editorSaveFile).call Call.fileSave).call
          (Call.showMessage Icon.Warning Message.writeFailed [QMessageBox.Ok] QMessageBox.Ok)).call
          (Call.editorSetModified true))).log = some (Call.editorSetModified true) := rfl
    refine ⟨rfl, hlast, ?_, by simp [updateStatus, VMdTab.call], by simp [updateStatus, VMdTab.call]⟩
    intro hlaw
    have hq := hlaw _ hlast
    unfold isModified at hmod ⊢
    cases hed : t.m_editor
    · simpa [hed, updateStatus, VMdTab.call] using hmod
    · simp only [updateStatus, VMdTab.call, hed] at hq ⊢
      simp [hq]
  · intro hsv
    rw [saveFile_written env t hmode hmod hro hex hsv]
    exact ⟨rfl, by simp [updateStatus, VMdTab.call], by simp [updateStatus, VMdTab.call]⟩

theorem sampleIsModified_of_last (log : List Call)
    (h : lastEditorCall log = some (Call.editorSetModified true)) :
    sampleIsModified log = true := by
  induction log with
  | nil => simp [lastEditorCall] at h
  | cons c log ih =>
    unfold lastEditorCall at h ih
    rw [List.find?_cons] at h
    cases c
    case editorSetModified b =>
      simp only [Call.onEditor, Option.some.injEq, Call.editorSetModified.injEq] at h
      subst h
      rfl
    all_goals first
      | exact ih h
      | (simp only [Call.onEditor, Option.some.injEq] at h; cases h)

theorem sampleEnvWriteFails_keeps : sampleEnvWriteFails.keepsSetModified :=
  fun log h => sampleIsModified_of_last log h

/-- C4, run on the sample note with a disk that refuses the write. -/
theorem saveFile_write_outcome_witness :
    sampleEditing.m_isEditMode = true
    ∧ isModified sampleEnvWriteFails sampleEditing = true
    ∧ (saveFile sampleEnvWriteFails sampleEditing).1 = false
    ∧ isModified sampleEnvWriteFails
        (saveFile sampleEnvWriteFails sampleEditing).2 = true :=
  ⟨rfl, rfl,
    ((saveFile_write_outcome sampleEnvWriteFails sampleEditing
      rfl rfl rfl rfl).1 rfl).1,
    ((saveFile_write_outcome sampleEnvWriteFails sampleEditing
      rfl rfl rfl rfl).1 rfl).2.2.1 sampleEnvWriteFails_keeps⟩

/-- C5. `updateOutlineFromHtml` changes nothing in edit mode and
`updateOutlineFromHeaders` changes nothing in read mode.  A call of
`updateOutlineFromHtml` that gives the outline a type gives it `Anchor`, in
read mode and after `parseTableFromHtml` returned true; a call of
`updateOutlineFromHeaders` that gives the outline a type gives it
`BlockNumber`, in edit mode.  Both calls are made when these conditions hold. -/
theorem outline_updates_gated_by_mode (env : Env) (t : VMdTab) (p_tocHtml : String)
    (p_headers : List VTableOfContentItem) :
    let parsed := env.outline_parseTableFromHtml
      ((t.call Call.outlineClear).call (Call.outlineParseTableFromHtml p_tocHtml)).log
    (t.m_isEditMode = true → updateOutlineFromHtml env t p_tocHtml = t)
    ∧ (t.m_isEditMode = false → updateOutlineFromHeaders env t p_headers = t)
    ∧ (∀ c ∈ newCalls t (updateOutlineFromHtml env t p_tocHtml), ∀ ty,
        c.setsOutlineType = some ty →
          ty = VTableOfContentType.Anchor ∧ t.m_isEditMode = false ∧ parsed = true)
    ∧ (∀ c ∈ newCalls t (updateOutlineFromHeaders env t p_headers), ∀ ty,
        c.setsOutlineType = some ty →
          ty = VTableOfContentType.BlockNumber ∧ t.m_isEditMode = true)
    ∧ (t.m_isEditMode = false → parsed = true →
        Call.outlineSetType VTableOfContentType.Anchor
          ∈ newCalls t (updateOutlineFromHtml env t p_tocHtml))
    ∧ (t.m_isEditMode = true →
        Call.outlineUpdate t.m_file p_headers VTableOfContentType.BlockNumber
          ∈ newCalls t (updateOutlineFromHeaders env t p_headers)) := by
  dsimp only
  have hhtml : t.m_isEditMode = true → updateOutlineFromHtml env t p_tocHtml = t := by
    intro h
    simp [updateOutlineFromHtml, h]
  have hheaders : t.m_isEditMode = false → updateOutlineFromHeaders env t p_headers = t := by
    intro h
    simp [updateOutlineFromHeaders, h]
  have hheaders_new : t.m_isEditMode = true →
      newCalls t (updateOutlineFromHeaders env t p_headers)
        = [Call.emitOutlineChanged,
            Call.outlineUpdate t.m_file p_headers VTableOfContentType.BlockNumber] := by
    intro h
    apply newCalls_of_log_eq
    simp [updateOutlineFromHeaders, h, VMdTab.call]
  have hhtml_ok : t.m_isEditMode = false →
      env.outline_parseTableFromHtml
        ((t.call Call.outlineClear).call (Call.outlineParseTableFromHtml p_tocHtml)).log = true →
      newCalls t (updateOutlineFromHtml env t p_tocHtml)
        = [Call.emitOutlineChanged, Call.outlineSetType VTableOfContentType.Anchor,
            Call.outlineSetFile t.m_file, Call.outlineParseTableFromHtml p_tocHtml,
            Call.outlineClear] := by
    intro h hp
    apply newCalls_of_log_eq
    simp only [VMdTab.call] at hp
    simp [updateOutlineFromHtml, h, hp, VMdTab.call]
  have hhtml_no : t.m_isEditMode = false →
      env.outline_parseTableFromHtml
        ((t.call Call.outlineClear).call (Call.outlineParseTableFromHtml p_tocHtml)).log = false →
      newCalls t (updateOutlineFromHtml env t p_tocHtml)
        = [Call.emitOutlineChanged, Call.outlineParseTableFromHtml p_tocHtml,
            Call.outlineClear] := by
    intro h hp
    apply newCalls_of_log_eq
    simp only [VMdTab.call] at hp
    simp [updateOutlineFromHtml, h, hp, VMdTab.call]
  refine ⟨hhtml, hheaders, ?_, ?_, ?_, ?_⟩
  · intro c hc ty hty
    cases hmode : t.m_isEditMode
    · cases hp : env.outline_parseTableFromHtml
          ((t.call Call.outlineClear).call (Call.outlineParseTableFromHtml p_tocHtml)).log
      · rw [hhtml_no hmode hp] at hc
        simp only [List.mem_cons, List.mem_singleton, List.not_mem_nil, or_false] at hc
        rcases hc with rfl | rfl | rfl <;> simp [Call.setsOutlineType] at hty
      · rw [hhtml_ok hmode hp] at hc
        simp only [List.mem_cons, List.mem_singleton, List.not_mem_nil, or_false] at hc
        rcases hc with rfl | rfl | rfl | rfl | rfl <;> simp [Call.setsOutlineType] at hty
        exact ⟨hty.symm, rfl, rfl⟩
    · rw [hhtml hmode, newCalls_self] at hc
      cases hc
  · intro c hc ty hty
    cases hmode : t.m_isEditMode
    · rw [hheaders hmode, newCalls_self] at hc
      cases hc
    · rw [hheaders_new hmode] at hc
      simp only [List.mem_cons, List.mem_singleton, List.not_mem_nil, or_false] at hc
      rcases hc with rfl | rfl <;> simp [Call.setsOutlineType] at hty
      exact ⟨hty.symm, rfl⟩
  · intro hmode hp
    rw [hhtml_ok hmode hp]
    simp
  · intro hmode
    rw [hheaders_new hmode]
    simp

/-- C5, run on the sample note: the table of contents arrives while the note
is being edited, and the headers of the editor arrive. -/
theorem outline_updates_gated_by_mode_witness :
    sampleEditing.m_isEditMode = true
    ∧ updateOutlineFromHtml sampleEnv sampleEditing "<ul></ul>" = sampleEditing
    ∧ Call.outlineUpdate sampleEditing.m_file sampleItems VTableOfContentType.BlockNumber
        ∈ newCalls sampleEditing (updateOutlineFromHeaders sampleEnv sampleEditing sampleItems) :=
  ⟨rfl, (outline_updates_gated_by_mode sampleEnv sampleEditing "<ul></ul>" sampleItems).1 rfl,
    (outline_updates_gated_by_mode sampleEnv sampleEditing "<ul></ul>" sampleItems).2.2.2.2.2 rfl⟩

/-- C6 as stated fails: on the sample note in read mode the header pointer
(file 1, index -1) is not valid, yet `scrollToHeader` scrolls the web view (to
the top) and replaces the current header. -/
theorem scrollToHeader_invalid_header_counterexample :
    (VHeaderPointer.mk (some 1) (-1)).isValid = false
    ∧ Call.documentScrollToAnchor ""
        ∈ newCalls sampleReading
            (scrollToHeader sampleEnv sampleReading (VHeaderPointer.mk (some 1) (-1)))
    ∧ (scrollToHeader sampleEnv sampleReading (VHeaderPointer.mk (some 1) (-1))).m_currentHeader
        ≠ sampleReading.m_currentHeader := by
  decide

/-- C6, amended. `scrollToHeader` acts only on a header pointer that the
outline matches: when `m_outline.isMatched(p_header)` is false the state is
unchanged, so nothing is scrolled and the current header is kept.  A matched
pointer that is not valid is acted on: in read mode with a non-empty outline of
type `Anchor` the web view is scrolled to the top and the pointer becomes the
current header. -/
theorem scrollToHeader_only_when_matched (env : Env) (t : VMdTab) (p_header : VHeaderPointer) :
    (env.outline_isMatched t.log p_header = false → scrollToHeader env t p_header = t)
    ∧ (env.outline_isMatched t.log p_header = true → p_header.isValid = false →
        t.m_isEditMode = false → env.outline_getType t.log = VTableOfContentType.Anchor →
        env.outline_isEmpty t.log = false →
        scrollToHeader env t p_header
          = ({ t with m_currentHeader := p_header }.call (Call.documentScrollToAnchor "")).call
              (Call.emitCurrentHeaderChanged p_header)) := by
  constructor
  · intro h
    simp [scrollToHeader, h]
  · intro hm hv hmode hty hne
    simp [scrollToHeader, scrollToHeaderInternal, scrollWebViewToHeader, hm, hv, hmode, hty, hne,
      VMdTab.call]

/-- C6, amended, run on the sample note with a header pointer of another file. -/
theorem scrollToHeader_only_when_matched_witness :
    sampleEnv.outline_isMatched sampleReading.log (VHeaderPointer.mk (some 2) 0) = false
    ∧ scrollToHeader sampleEnv sampleReading (VHeaderPointer.mk (some 2) 0) = sampleReading :=
  ⟨rfl, (scrollToHeader_only_when_matched sampleEnv sampleReading (VHeaderPointer.mk (some 2) 0)).1
    rfl⟩

theorem connectAll_log (cs : List Connection) (t : VMdTab) :
    (t.connectAll cs).log = (cs.map Call.connect).reverse ++ t.log := by
  unfold VMdTab.connectAll
  induction cs generalizing t with
  | nil => rfl
  | cons c cs ih =>
    rw [List.foldl_cons, ih]
    simp [VMdTab.call]

theorem connectAll_fields (cs : List Connection) (t : VMdTab) :
    (t.connectAll cs).m_isEditMode = t.m_isEditMode
    ∧ (t.connectAll cs).m_editor = t.m_editor
    ∧ (t.connectAll cs).m_currentHeader = t.m_currentHeader := by
  unfold VMdTab.connectAll
  induction cs generalizing t with
  | nil => exact ⟨rfl, rfl, rfl⟩
  | cons c cs ih =>
    rw [List.foldl_cons]
    exact ih _

theorem connectAll_adds (cs : List Connection) (t : VMdTab) :
    Adds (fun _ => True) t.log (t.connectAll cs).log := by
  unfold VMdTab.connectAll
  induction cs generalizing t with
  | nil => exact Adds.refl
  | cons c cs ih =>
    rw [List.foldl_cons]
    exact Adds.trans (Adds.call Adds.refl trivial) (ih _)

theorem setupMarkdownEditor_fields (t : VMdTab) :
    (setupMarkdownEditor t).m_isEditMode = t.m_isEditMode
    ∧ (setupMarkdownEditor t).m_editor = true
    ∧ (setupMarkdownEditor t).m_currentHeader = t.m_currentHeader := by
  unfold setupMarkdownEditor
  dsimp only
  obtain ⟨h₁, h₂, h₃⟩ := connectAll_fields editorConnections
    ({ t.call Call.editorNew with m_editor := true }.call Call.editorSetProperty)
  generalize VMdTab.connectAll _ editorConnections = t₁ at h₁ h₂ h₃ ⊢
  simp only [VMdTab.call] at h₁ h₂ h₃
  split <;> exact ⟨h₁, h₂, h₃⟩

theorem setupMarkdownEditor_adds (t : VMdTab) :
    Adds (fun _ => True) t.log (setupMarkdownEditor t).log := by
  unfold setupMarkdownEditor
  dsimp only
  have h := Adds.trans
    (Adds.call (Adds.call (t := t) (P := fun _ => True) Adds.refl trivial) trivial)
    (connectAll_adds editorConnections
      ({ t.call Call.editorNew with m_editor := true }.call Call.editorSetProperty))
  generalize VMdTab.connectAll _ editorConnections = t₁ at h ⊢
  refine Adds.call (Adds.call ?_ trivial) trivial
  split
  · exact Adds.call h trivial
  · exact h

theorem getEditor_adds (t : VMdTab) : Adds (fun _ => True) t.log (getEditor t).log := by
  unfold getEditor
  split
  · exact Adds.refl
  · exact setupMarkdownEditor_adds t

theorem getEditor_isEditMode (t : VMdTab) : (getEditor t).m_isEditMode = t.m_isEditMode := by
  unfold getEditor
  split
  · rfl
  · exact (setupMarkdownEditor_fields t).1

theorem getEditor_editor (t : VMdTab) : (getEditor t).m_editor = true := by
  unfold getEditor
  split
  · assumption
  · exact (setupMarkdownEditor_fields t).2.1

theorem getEditor_currentHeader (t : VMdTab) :
    (getEditor t).m_currentHeader = t.m_currentHeader := by
  unfold getEditor
  split
  · rfl
  · exact (setupMarkdownEditor_fields t).2.2

/-- C7. `scrollToHeaderInternal` either returns true with `m_currentHeader`
equal to `p_header`, or returns false with `m_currentHeader` unchanged.  It
returns false whenever the outline does not match `p_header`, and whenever the
outline type is not the one of the mode (`Anchor` in read mode, `BlockNumber`
in edit mode). -/
theorem scrollToHeaderInternal_atomic (env : Env) (t : VMdTab) (p_header : VHeaderPointer) :
    ((scrollToHeaderInternal env t p_header).1 = true →
        (scrollToHeaderInternal env t p_header).2.m_currentHeader = p_header)
    ∧ ((scrollToHeaderInternal env t p_header).1 = false →
        (scrollToHeaderInternal env t p_header).2.m_currentHeader = t.m_currentHeader)
    ∧ (env.outline_isMatched t.log p_header = false →
        (scrollToHeaderInternal env t p_header).1 = false)
    ∧ (env.outline_getType t.log
          ≠ (if t.m_isEditMode then VTableOfContentType.BlockNumber
             else VTableOfContentType.Anchor) →
        (scrollToHeaderInternal env t p_header).1 = false) := by
  have hweb : ((scrollWebViewToHeader env t p_header).1 = true →
        (scrollWebViewToHeader env t p_header).2.m_currentHeader = p_header)
      ∧ ((scrollWebViewToHeader env t p_header).1 = false →
        (scrollWebViewToHeader env t p_header).2.m_currentHeader = t.m_currentHeader) := by
    unfold scrollWebViewToHeader
    dsimp only
    repeat' split
    all_goals simp [VMdTab.call]
  have hed : ((scrollEditorToHeader env t p_header).1 = true →
        (scrollEditorToHeader env t p_header).2.m_currentHeader = p_header)
      ∧ ((scrollEditorToHeader env t p_header).1 = false →
        (scrollEditorToHeader env t p_header).2.m_currentHeader = t.m_currentHeader) := by
    unfold scrollEditorToHeader
    dsimp only
    repeat' split
    all_goals simp [VMdTab.call, getEditor_currentHeader]
  unfold scrollToHeaderInternal
  cases hmode : t.m_isEditMode
  · simp only [Bool.false_eq_true, if_false]
    refine ⟨hweb.1, hweb.2, ?_, ?_⟩
    · intro h
      simp [scrollWebViewToHeader, h]
    · intro h
      simp [scrollWebViewToHeader, h]
  · simp only [if_true]
    refine ⟨hed.1, hed.2, ?_, ?_⟩
    · intro h
      simp [scrollEditorToHeader, h]
    · intro h
      simp [scrollEditorToHeader, h]

/-- C7, run on the sample note: a header pointer of another file is refused
and the current header stays. -/
theorem scrollToHeaderInternal_atomic_witness :
    sampleEnv.outline_isMatched sampleReading.log (VHeaderPointer.mk (some 2) 0) = false
    ∧ (scrollToHeaderInternal sampleEnv sampleReading (VHeaderPointer.mk (some 2) 0)).1 = false
    ∧ (scrollToHeaderInternal sampleEnv sampleReading
        (VHeaderPointer.mk (some 2) 0)).2.m_currentHeader = sampleReading.m_currentHeader :=
  ⟨rfl,
    (scrollToHeaderInternal_atomic sampleEnv sampleReading (VHeaderPointer.mk (some 2) 0)).2.2.1 rfl,
    (scrollToHeaderInternal_atomic sampleEnv sampleReading (VHeaderPointer.mk (some 2) 0)).2.1
      ((scrollToHeaderInternal_atomic sampleEnv sampleReading
        (VHeaderPointer.mk (some 2) 0)).2.2.1 rfl)⟩

theorem newCalls_call_of_adds {P : Call → Prop} {t m : VMdTab} (h : Adds P t.log m.log)
    (c : Call) : newCalls t (m.call c) = c :: newCalls t m := by
  obtain ⟨a, ha, _⟩ := h.exists_append
  rw [newCalls_of_log_eq ha]
  exact newCalls_of_log_eq (by simp [VMdTab.call, ha])

theorem waitForHeaders_adds (env : Env) (header : VHeaderPointer) (n : Nat) (t : VMdTab) :
    Adds (fun _ => True) t.log (waitForHeaders env header n t).log := by
  induction n generalizing t with
  | zero => exact Adds.refl
  | succ n ih =>
    unfold waitForHeaders
    split
    · exact Adds.trans (Adds.call (Adds.call Adds.refl trivial) trivial) (ih _)
    · exact Adds.refl

theorem waitForHeaders_isEditMode (env : Env) (header : VHeaderPointer) (n : Nat) (t : VMdTab) :
    (waitForHeaders env header n t).m_isEditMode = t.m_isEditMode := by
  induction n generalizing t with
  | zero => rfl
  | succ n ih =>
    unfold waitForHeaders
    split
    · rw [ih]; rfl
    · rfl

theorem waitForHeaders_editor (env : Env) (header : VHeaderPointer) (n : Nat) (t : VMdTab) :
    (waitForHeaders env header n t).m_editor = t.m_editor := by
  induction n generalizing t with
  | zero => rfl
  | succ n ih =>
    unfold waitForHeaders
    split
    · rw [ih]; rfl
    · rfl

theorem scrollEditorToHeader_adds (env : Env) (t : VMdTab) (h : VHeaderPointer) :
    Adds (fun _ => True) t.log (scrollEditorToHeader env t h).2.log := by
  unfold scrollEditorToHeader
  dsimp only
  repeat' split
  all_goals first
    | exact Adds.refl
    | exact getEditor_adds t
    | exact Adds.call (getEditor_adds t) trivial

theorem scrollEditorToHeader_isEditMode (env : Env) (t : VMdTab) (h : VHeaderPointer) :
    (scrollEditorToHeader env t h).2.m_isEditMode = t.m_isEditMode := by
  unfold scrollEditorToHeader
  dsimp only
  repeat' split
  all_goals simp [VMdTab.call, getEditor_isEditMode]

theorem scrollEditorToHeader_editor (env : Env) (t : VMdTab) (h : VHeaderPointer)
    (ht : t.m_editor = true) : (scrollEditorToHeader env t h).2.m_editor = true := by
  unfold scrollEditorToHeader
  dsimp only
  repeat' split
  all_goals simp [VMdTab.call, getEditor_editor, ht]

theorem showFileEditMode_adds (env : Env) (t : VMdTab) :
    Adds (fun _ => True) t.log (showFileEditMode env t).log := by
  unfold showFileEditMode
  refine Adds.call ?_ trivial
  refine Adds.trans ?_ (scrollEditorToHeader_adds env _ _)
  refine Adds.trans ?_ (waitForHeaders_adds env _ _ _)
  refine Adds.call (Adds.call ?_ trivial) trivial
  exact getEditor_adds { t with m_isEditMode := true }

theorem showFileEditMode_isEditMode (env : Env) (t : VMdTab) :
    (showFileEditMode env t).m_isEditMode = true := by
  unfold showFileEditMode
  show (scrollEditorToHeader env _ _).2.m_isEditMode = true
  rw [scrollEditorToHeader_isEditMode, waitForHeaders_isEditMode]
  show (getEditor _).m_isEditMode = true
  rw [getEditor_isEditMode]

theorem showFileEditMode_editor (env : Env) (t : VMdTab) :
    (showFileEditMode env t).m_editor = true := by
  unfold showFileEditMode
  show (scrollEditorToHeader env _ _).2.m_editor = true
  apply scrollEditorToHeader_editor
  rw [waitForHeaders_editor]
  show (getEditor _).m_editor = true
  rw [getEditor_editor]

theorem backupBoxShown_newCalls (env : Env) (t : VMdTab) :
    newCalls t (backupBoxShown env t)
      = [Call.backupBoxExec (env.file_backupFileOfPreviousSession t.log)
          (env.file_fetchPath
            (Call.fileReadBackupFile (env.file_backupFileOfPreviousSession t.log) :: t.log))
          (env.file_getContent
            (Call.fileReadBackupFile (env.file_backupFileOfPreviousSession t.log) :: t.log)
            == backupContentRead env t),
         Call.fileReadBackupFile (env.file_backupFileOfPreviousSession t.log)] :=
  newCalls_of_log_eq rfl

theorem backupBoxShown_adds (env : Env) (t : VMdTab) :
    Adds (fun _ => True) t.log (backupBoxShown env t).log :=
  Adds.cons trivial (Adds.cons trivial Adds.refl)

theorem checkPreviousBackupFile_none (env : Env) (t : VMdTab)
    (hpre : (env.file_backupFileOfPreviousSession t.log).isEmpty = true) :
    checkPreviousBackupFile env t = (true, { t with m_backupFileChecked := true }) := by
  unfold checkPreviousBackupFile
  simp [hpre]

theorem checkPreviousBackupFile_cancel (env : Env) (t : VMdTab)
    (hpre : (env.file_backupFileOfPreviousSession t.log).isEmpty = false)
    (hbtn : env.clickedButton (backupBoxShown env t).log = some BackupButton.cancelBtn
      ∨ env.clickedButton (backupBoxShown env t).log = none) :
    checkPreviousBackupFile env t
      = (false, (backupBoxShown env t).call Call.emitCloseRequested) := by
  unfold checkPreviousBackupFile
  unfold backupBoxShown at hbtn ⊢
  dsimp only at hbtn ⊢
  rw [if_neg (by simp [hpre])]
  rcases hbtn with h | h <;> simp [h]

theorem checkPreviousBackupFile_discard (env : Env) (t : VMdTab)
    (hpre : (env.file_backupFileOfPreviousSession t.log).isEmpty = false)
    (hbtn : env.clickedButton (backupBoxShown env t).log = some BackupButton.discardBtn) :
    checkPreviousBackupFile env t
      = (true, (backupBoxShown env t).call
          (Call.deleteFile (env.file_backupFileOfPreviousSession t.log))) := by
  unfold checkPreviousBackupFile
  unfold backupBoxShown at hbtn ⊢
  dsimp only at hbtn ⊢
  rw [if_neg (by simp [hpre])]
  simp [hbtn]

theorem checkPreviousBackupFile_recover (env : Env) (t : VMdTab)
    (hpre : (env.file_backupFileOfPreviousSession t.log).isEmpty = false)
    (hbtn : env.clickedButton (backupBoxShown env t).log = some BackupButton.recoverBtn) :
    checkPreviousBackupFile env t
      = (true, (updateStatus
          ((if !t.m_isEditMode then showFileEditMode env (backupBoxShown env t)
            else backupBoxShown env t).call
              (Call.editorSetContent (backupContentRead env t) true))).call
          (Call.deleteFile (env.file_backupFileOfPreviousSession t.log))) := by
  unfold checkPreviousBackupFile
  unfold backupBoxShown at hbtn ⊢
  unfold backupContentRead
  dsimp only at hbtn ⊢
  rw [if_neg (by simp [hpre])]
  simp only [hbtn]
  simp
  rfl

theorem recoverTarget_adds (env : Env) (t : VMdTab) :
    Adds (fun _ => True) t.log
      (if !t.m_isEditMode then showFileEditMode env (backupBoxShown env t)
        else backupBoxShown env t).log := by
  split
  · exact (backupBoxShown_adds env t).trans (showFileEditMode_adds env _)
  · exact backupBoxShown_adds env t

/-- C8. `checkPreviousBackupFile` deletes a file exactly when there is a backup
file of the previous session and the user picks Recover or Discard; it then
returns true, and the file it deletes, as its last call, is that backup file.
When the user picks Cancel or closes the box it returns false after asking for
the tab to be closed, having made no call on the editor and deleted nothing.
When there is no backup file it returns true and makes no call at all. -/
theorem checkPreviousBackupFile_deletes_when_settled (env : Env) (t : VMdTab) :
    let preFile := env.file_backupFileOfPreviousSession t.log
    let btn := env.clickedButton (backupBoxShown env t).log
    let r := checkPreviousBackupFile env t
    let settled := preFile.isEmpty = false
      ∧ (btn = some BackupButton.recoverBtn ∨ btn = some BackupButton.discardBtn)
    ((∃ c ∈ newCalls t r.2, c.isDelete = true) ↔ settled)
    ∧ (settled → r.1 = true ∧ r.2.log.head? = some (Call.deleteFile preFile))
    ∧ (preFile.isEmpty = false → btn = some BackupButton.cancelBtn ∨ btn = none →
        r = (false, (backupBoxShown env t).call Call.emitCloseRequested)
        ∧ ∀ c ∈ newCalls t r.2, c.onEditor = false ∧ c.isDelete = false)
    ∧ (preFile.isEmpty = true →
        r = (true, { t with m_backupFileChecked := true }) ∧ newCalls t r.2 = []) := by
  dsimp only
  have hnone : (env.file_backupFileOfPreviousSession t.log).isEmpty = true →
      checkPreviousBackupFile env t = (true, { t with m_backupFileChecked := true })
      ∧ newCalls t (checkPreviousBackupFile env t).2 = [] := by
    intro hpre
    rw [checkPreviousBackupFile_none env t hpre]
    exact ⟨rfl, newCalls_of_log_eq rfl⟩
  have hcancel : (env.file_backupFileOfPreviousSession t.log).isEmpty = false →
      env.clickedButton (backupBoxShown env t).log = some BackupButton.cancelBtn
        ∨ env.clickedButton (backupBoxShown env t).log = none →
      checkPreviousBackupFile env t
        = (false, (backupBoxShown env t).call Call.emitCloseRequested)
      ∧ ∀ c ∈ newCalls t (checkPreviousBackupFile env t).2,
          c.onEditor = false ∧ c.isDelete = false := by
    intro hpre hbtn
    rw [checkPreviousBackupFile_cancel env t hpre hbtn]
    refine ⟨rfl, ?_⟩
    rw [newCalls_call_of_adds (backupBoxShown_adds env t), backupBoxShown_newCalls]
    intro c hc
    simp only [List.mem_cons, List.mem_singleton, List.not_mem_nil, or_false] at hc
    rcases hc with rfl | rfl | rfl <;> exact ⟨rfl, rfl⟩
  have hsettled : (env.file_backupFileOfPreviousSession t.log).isEmpty = false →
      env.clickedButton (backupBoxShown env t).log = some BackupButton.recoverBtn
        ∨ env.clickedButton (backupBoxShown env t).log = some BackupButton.discardBtn →
      (checkPreviousBackupFile env t).1 = true
      ∧ (checkPreviousBackupFile env t).2.log.head?
          = some (Call.deleteFile (env.file_backupFileOfPreviousSession t.log))
      ∧ ∃ c ∈ newCalls t (checkPreviousBackupFile env t).2, c.isDelete = true := by
    intro hpre hbtn
    rcases hbtn with hbtn | hbtn
    · rw [checkPreviousBackupFile_recover env t hpre hbtn]
      refine ⟨rfl, rfl, Call.deleteFile (env.file_backupFileOfPreviousSession t.log), ?_, rfl⟩
      have hadds : Adds (fun _ => True) t.log (updateStatus
          ((if !t.m_isEditMode then showFileEditMode env (backupBoxShown env t)
            else backupBoxShown env t).call
              (Call.editorSetContent (backupContentRead env t) true))).log :=
        Adds.call (Adds.call (recoverTarget_adds env t) trivial) trivial
      rw [newCalls_call_of_adds hadds]
      exact List.mem_cons_self _ _
    · rw [checkPreviousBackupFile_discard env t hpre hbtn]
      refine ⟨rfl, rfl, Call.deleteFile (env.file_backupFileOfPreviousSession t.log), ?_, rfl⟩
      rw [newCalls_call_of_adds (backupBoxShown_adds env t)]
      exact List.mem_cons_self _ _
  refine ⟨⟨?_, ?_⟩, ?_, hcancel, hnone⟩
  · rintro ⟨c, hc, hdel⟩
    cases hpre : (env.file_backupFileOfPreviousSession t.log).isEmpty
    · refine ⟨rfl, ?_⟩
      rcases hbtn : env.clickedButton (backupBoxShown env t).log with _ | b
      · rw [((hcancel hpre (Or.inr hbtn)).2 c hc).2] at hdel
        cases hdel
      · cases b
        · exact Or.inl rfl
        · exact Or.inr rfl
        · rw [((hcancel hpre (Or.inl hbtn)).2 c hc).2] at hdel
          cases hdel
    · rw [(hnone hpre).2] at hc
      cases hc
  · rintro ⟨hpre, hbtn⟩
    exact (hsettled hpre hbtn).2.2
  · rintro ⟨hpre, hbtn⟩
    exact ⟨(hsettled hpre hbtn).1, (hsettled hpre hbtn).2.1⟩

/-- C8, run on the sample note: a backup file exists and the user recovers. -/
theorem checkPreviousBackupFile_deletes_when_settled_witness :
    ((sampleEnv.file_backupFileOfPreviousSession sampleReading.log).isEmpty = false
      ∧ (sampleEnv.clickedButton (backupBoxShown sampleEnv sampleReading).log
            = some BackupButton.recoverBtn
          ∨ sampleEnv.clickedButton (backupBoxShown sampleEnv sampleReading).log
            = some BackupButton.discardBtn))
    ∧ (checkPreviousBackupFile sampleEnv sampleReading).1 = true
    ∧ (checkPreviousBackupFile sampleEnv sampleReading).2.log.head?
        = some (Call.deleteFile "/notes/.a.md.vswp") :=
  ⟨⟨by decide, Or.inl rfl⟩,
    (checkPreviousBackupFile_deletes_when_settled sampleEnv sampleReading).2.1
      ⟨by decide, Or.inl rfl⟩⟩

/-- C9. With a backup file of the previous session: after Recover the tab is in
edit mode and the last call on the editor is `setContent` with the content read
from the backup file and the modified flag, so that an editor that keeps what
it is given holds that content, marked as modified.  After Discard the mode is
unchanged and no call was made on the editor. -/
theorem checkPreviousBackupFile_recovers_content (env : Env) (t : VMdTab)
    (hpre : (env.file_backupFileOfPreviousSession t.log).isEmpty = false) :
    let btn := env.clickedButton (backupBoxShown env t).log
    let r := checkPreviousBackupFile env t
    (btn = some BackupButton.recoverBtn →
        r.2.m_isEditMode = true
        ∧ lastEditorCall r.2.log = some (Call.editorSetContent (backupContentRead env t) true)
        ∧ (env.keepsSetContent →
            env.editor_getContent r.2.log = backupContentRead env t
            ∧ env.editor_isModified r.2.log = true))
    ∧ (btn = some BackupButton.discardBtn →
        r.2.m_isEditMode = t.m_isEditMode ∧ r.2.m_editor = t.m_editor
        ∧ ∀ c ∈ newCalls t r.2, c.onEditor = false) := by
  dsimp only
  constructor
  · intro hbtn
    rw [checkPreviousBackupFile_recover env t hpre hbtn]
    have hlast : lastEditorCall ((updateStatus
        ((if !t.m_isEditMode then showFileEditMode env (backupBoxShown env t)
          else backupBoxShown env t).call
            (Call.editorSetContent (backupContentRead env t) true))).call
          (Call.deleteFile (env.file_backupFileOfPreviousSession t.log))).log
        = some (Call.editorSetContent (backupContentRead env t) true) := rfl
    refine ⟨?_, hlast, fun hlaw => hlaw _ _ hlast⟩
    show (ite _ _ _ : VMdTab).m_isEditMode = true
    cases hmode : t.m_isEditMode
    · simp [showFileEditMode_isEditMode]
    · simp [backupBoxShown, VMdTab.call, hmode]
  · intro hbtn
    rw [checkPreviousBackupFile_discard env t hpre hbtn]
    refine ⟨rfl, rfl, ?_⟩
    rw [newCalls_call_of_adds (backupBoxShown_adds env t), backupBoxShown_newCalls]
    intro c hc
    simp only [List.mem_cons, List.mem_singleton, List.not_mem_nil, or_false] at hc
    rcases hc with rfl | rfl | rfl <;> rfl

/-- C9, run on the sample note: the user recovers while reading, the tab
switches to edit mode and the editor is given the backup content. -/
theorem checkPreviousBackupFile_recovers_content_witness :
    (sampleEnv.file_backupFileOfPreviousSession sampleReading.log).isEmpty = false
    ∧ (checkPreviousBackupFile sampleEnv sampleReading).2.m_isEditMode = true
    ∧ lastEditorCall (checkPreviousBackupFile sampleEnv sampleReading).2.log
        = some (Call.editorSetContent (backupContentRead sampleEnv sampleReading) true) :=
  ⟨by decide,
    ((checkPreviousBackupFile_recovers_content sampleEnv sampleReading (by decide)).1 rfl).1,
    ((checkPreviousBackupFile_recovers_content sampleEnv sampleReading (by decide)).1 rfl).2.1⟩

theorem collectItems_eq (snippets : List VSnippet) (items : List VInsertSelectorItem) :
    collectItems snippets items
      = items ++ (snippets.filter (fun s => !(s.m_shortcut == 0))).map
          (fun s => VInsertSelectorItem.mk s.m_name s.m_name s.m_shortcut) := by
  induction snippets generalizing items with
  | nil => simp [collectItems]
  | cons s rest ih =>
    unfold collectItems
    split
    · rename_i h
      rw [ih]
      simp [List.filter_cons, h]
    · rename_i h
      rw [ih]
      simp [List.filter_cons, h]

theorem sortInsert_perm {α : Type} (lt : α → α → Bool) (x : α) (l : List α) :
    (sortInsert lt x l).Perm (x :: l) := by
  induction l with
  | nil => exact List.Perm.refl _
  | cons y ys ih =>
    unfold sortInsert
    split
    · exact List.Perm.refl _
    · exact ((List.Perm.cons y ih).trans (List.Perm.swap x y ys))

theorem stdSort_perm {α : Type} (comp : α → α → Bool) (l : List α) :
    (stdSort comp l).Perm l := by
  induction l with
  | nil => exact List.Perm.refl _
  | cons x xs ih =>
    show (sortInsert comp x (stdSort comp xs)).Perm (x :: xs)
    exact (sortInsert_perm comp x _).trans (List.Perm.cons x ih)

theorem sortInsert_sorted (x : VInsertSelectorItem) (l : List VInsertSelectorItem)
    (hl : l.Pairwise (fun a b => a.m_shortcut ≤ b.m_shortcut)) :
    (sortInsert selectorItemCmp x l).Pairwise (fun a b => a.m_shortcut ≤ b.m_shortcut) := by
  induction l with
  | nil => simp [sortInsert]
  | cons y ys ih =>
    obtain ⟨hy, hys⟩ := List.pairwise_cons.mp hl
    unfold sortInsert
    split
    · rename_i hlt
      have hxy : x.m_shortcut < y.m_shortcut := by
        simpa [selectorItemCmp] using hlt
      refine List.pairwise_cons.mpr ⟨?_, hl⟩
      intro z hz
      rcases List.mem_cons.mp hz with rfl | hz
      · exact Nat.le_of_lt hxy
      · exact Nat.le_trans (Nat.le_of_lt hxy) (hy z hz)
    · rename_i hlt
      have hyx : y.m_shortcut ≤ x.m_shortcut := by
        simpa [selectorItemCmp] using hlt
      refine List.pairwise_cons.mpr ⟨?_, ih hys⟩
      intro z hz
      rcases List.mem_cons.mp ((sortInsert_perm selectorItemCmp x ys).subset hz) with rfl | hz
      · exact hyx
      · exact hy z hz

theorem stdSort_sorted (l : List VInsertSelectorItem) :
    (stdSort selectorItemCmp l).Pairwise (fun a b => a.m_shortcut ≤ b.m_shortcut) := by
  induction l with
  | nil => exact List.Pairwise.nil
  | cons x xs ih => exact sortInsert_sorted x _ ih

/-- C10. `prepareSnippetSelector` returns `NULL` exactly when no snippet of the
snippet list has a non-null shortcut.  Otherwise the items of the selector are
a permutation of the items made from the snippets with a non-null shortcut (one
for each, none with a null shortcut), in non-decreasing order of shortcut. -/
theorem prepareSnippetSelector_sorted_items (env : Env) (t : VMdTab) (p_parent : Nat) :
    let snippets := env.getSnippets t.log
    let wanted := (snippets.filter (fun s => !(s.m_shortcut == 0))).map
      (fun s => VInsertSelectorItem.mk s.m_name s.m_name s.m_shortcut)
    (prepareSnippetSelector env t p_parent = none ↔ ∀ s ∈ snippets, s.m_shortcut = 0)
    ∧ (∀ sel, prepareSnippetSelector env t p_parent = some sel →
        sel.m_items.Perm wanted
        ∧ (∀ i ∈ sel.m_items, i.m_shortcut ≠ 0)
        ∧ sel.m_items.Sorted (fun a b => a.m_shortcut ≤ b.m_shortcut)) := by
  dsimp only
  have hitems := collectItems_eq (env.getSnippets t.log) []
  rw [List.nil_append] at hitems
  constructor
  · unfold prepareSnippetSelector
    dsimp only
    rw [hitems]
    constructor
    · intro h s hs
      by_contra hne
      have hmem : s ∈ (env.getSnippets t.log).filter (fun s => !(s.m_shortcut == 0)) :=
        List.mem_filter.mpr ⟨hs, by simpa using hne⟩
      split at h
      · rename_i hempty
        have := List.isEmpty_iff.mp hempty
        rw [List.map_eq_nil_iff] at this
        rw [this] at hmem
        cases hmem
      · cases h
    · intro h
      have hnil : (env.getSnippets t.log).filter (fun s => !(s.m_shortcut == 0)) = [] := by
        apply List.filter_eq_nil_iff.mpr
        intro s hs
        simp [h s hs]
      rw [hnil]
      rfl
  · intro sel hsel
    unfold prepareSnippetSelector at hsel
    dsimp only at hsel
    rw [hitems] at hsel
    split at hsel
    · cases hsel
    · simp only [Option.some.injEq] at hsel
      subst hsel
      have hperm := stdSort_perm selectorItemCmp
        (((env.getSnippets t.log).filter (fun s => !(s.m_shortcut == 0))).map
          (fun s => VInsertSelectorItem.mk s.m_name s.m_name s.m_shortcut))
      refine ⟨hperm, ?_, stdSort_sorted _⟩
      intro i hi
      have hi' := hperm.subset hi
      obtain ⟨s, hs, rfl⟩ := List.mem_map.mp hi'
      have := (List.mem_filter.mp hs).2
      simpa using this

/-- C10, run on the sample note: the snippets `sig` (shortcut `s`), `date`
(shortcut `d`) and `plain` (no shortcut) give the items for `date` and `sig`,
in this order. -/
theorem prepareSnippetSelector_sorted_items_witness :
    prepareSnippetSelector sampleEnv sampleEditing 0
      = some (VInsertSelector.mk 7
          [VInsertSelectorItem.mk "date" "date" 100, VInsertSelectorItem.mk "sig" "sig" 115] 0)
    ∧ List.Sorted (fun a b : VInsertSelectorItem => a.m_shortcut ≤ b.m_shortcut)
        [VInsertSelectorItem.mk "date" "date" 100, VInsertSelectorItem.mk "sig" "sig" 115] :=
  ⟨by decide,
    ((prepareSnippetSelector_sorted_items sampleEnv sampleEditing 0).2
      (VInsertSelector.mk 7
        [VInsertSelectorItem.mk "date" "date" 100, VInsertSelectorItem.mk "sig" "sig" 115] 0)
      (by decide)).2.2⟩

/-- C11. `applySnippet(p_snippet)` calls the snippet's `apply` only in edit
mode, with a modifiable file and a snippet of type `PlainText`.  In every other
case its only call is the status message that the snippet is not applicable, so
nothing is done to the editor.  When the three conditions hold and `apply`
reports no change, `apply` is its only call: the editor is given no cursor and
no Vim mode.  When `apply` reports a change, the editor is given the cursor and
Vim mode `Insert`. -/
theorem applySnippet_only_when_applicable (env : Env) (t : VMdTab) (p_snippet : VSnippet) :
    let applicable := t.m_isEditMode = true ∧ env.file_isModifiable t.log = true
      ∧ p_snippet.m_type = VSnippetType.PlainText
    let changed := env.snippet_apply (Call.snippetApply p_snippet.m_name :: t.log)
    let t' := applySnippet env t p_snippet
    ((∃ c ∈ newCalls t t', c.isSnippetApply = true) → applicable)
    ∧ (¬ applicable →
        t' = t.call (Call.showStatusMessage (StatusMessage.snippetNotApplicable p_snippet.m_name))
        ∧ ∀ c ∈ newCalls t t', c.onEditor = false ∧ c.isSnippetApply = false)
    ∧ (applicable → changed = false →
        t' = t.call (Call.snippetApply p_snippet.m_name)
        ∧ ∀ c ∈ newCalls t t', c.onEditor = false)
    ∧ (applicable → changed = true →
        t' = ((((t.call (Call.snippetApply p_snippet.m_name)).call Call.editorSetTextCursor).call
            (Call.editorSetVimMode VimMode.Insert)).call
            (Call.showStatusMessage StatusMessage.snippetApplied)).call Call.focusTab) := by
  dsimp only
  have hnot : ¬ (t.m_isEditMode = true ∧ env.file_isModifiable t.log = true
        ∧ p_snippet.m_type = VSnippetType.PlainText) →
      applySnippet env t p_snippet
        = t.call (Call.showStatusMessage (StatusMessage.snippetNotApplicable p_snippet.m_name)) := by
    intro h
    unfold applySnippet
    rw [if_neg]
    simpa [and_assoc] using h
  have hyes : (t.m_isEditMode = true ∧ env.file_isModifiable t.log = true
        ∧ p_snippet.m_type = VSnippetType.PlainText) →
      applySnippet env t p_snippet
        = if env.snippet_apply (Call.snippetApply p_snippet.m_name :: t.log) = true then
            ((((t.call (Call.snippetApply p_snippet.m_name)).call Call.editorSetTextCursor).call
              (Call.editorSetVimMode VimMode.Insert)).call
              (Call.showStatusMessage StatusMessage.snippetApplied)).call Call.focusTab
          else t.call (Call.snippetApply p_snippet.m_name) := by
    intro h
    unfold applySnippet
    rw [if_pos]
    · rfl
    · simpa [and_assoc] using h
  refine ⟨?_, ?_, ?_, ?_⟩
  · rintro ⟨c, hc, hap⟩
    by_contra h
    rw [hnot h, newCalls_call] at hc
    rw [List.mem_singleton.mp hc] at hap
    cases hap
  · intro h
    refine ⟨hnot h, ?_⟩
    rw [hnot h, newCalls_call]
    intro c hc
    rw [List.mem_singleton.mp hc]
    exact ⟨rfl, rfl⟩
  · intro h hch
    rw [hyes h, if_neg (by simp [hch])]
    refine ⟨rfl, ?_⟩
    rw [newCalls_call]
    intro c hc
    rw [List.mem_singleton.mp hc]
    rfl
  · intro h hch
    rw [hyes h, if_pos hch]

/-- C11, run on the sample note: a plain-text snippet is applied while
editing. -/
theorem applySnippet_only_when_applicable_witness :
    (sampleEditing.m_isEditMode = true ∧ sampleEnv.file_isModifiable sampleEditing.log = true
      ∧ (VSnippet.mk "sig" 115 VSnippetType.PlainText).m_type = VSnippetType.PlainText)
    ∧ sampleEnv.snippet_apply (Call.snippetApply "sig" :: sampleEditing.log) = true
    ∧ applySnippet sampleEnv sampleEditing (VSnippet.mk "sig" 115 VSnippetType.PlainText)
        = ((((sampleEditing.call (Call.snippetApply "sig")).call Call.editorSetTextCursor).call
            (Call.editorSetVimMode VimMode.Insert)).call
            (Call.showStatusMessage StatusMessage.snippetApplied)).call Call.focusTab :=
  ⟨⟨rfl, rfl, rfl⟩, rfl,
    (applySnippet_only_when_applicable sampleEnv sampleEditing
      (VSnippet.mk "sig" 115 VSnippetType.PlainText)).2.2.2 ⟨rfl, rfl, rfl⟩ rfl⟩

/-- C12. `updateCurrentHeader(anchor)` changes nothing in edit mode; in read
mode it updates the current header with the tab's file and the index the
outline gives for the anchor, which makes it that pair.
`updateCurrentHeader(blockNumber)` changes nothing in read mode; in edit mode
it updates the current header with the tab's file and the index the outline
gives for the block number. -/
theorem updateCurrentHeader_gated_by_mode (env : Env) (t : VMdTab) (p_anchor : String)
    (p_blockNumber : Int) :
    (t.m_isEditMode = true → updateCurrentHeader_QString env t p_anchor = t)
    ∧ (t.m_isEditMode = false →
        (updateCurrentHeader_QString env t p_anchor).m_currentHeader
          = env.header_update t.m_currentHeader t.m_file
              (env.outline_indexOfItemByAnchor t.log p_anchor)
        ∧ (env.updatesHeader →
            (updateCurrentHeader_QString env t p_anchor).m_currentHeader
              = VHeaderPointer.mk (some t.m_file)
                  (env.outline_indexOfItemByAnchor t.log p_anchor)))
    ∧ (t.m_isEditMode = false → updateCurrentHeader_int env t p_blockNumber = t)
    ∧ (t.m_isEditMode = true →
        (updateCurrentHeader_int env t p_blockNumber).m_currentHeader
          = env.header_update t.m_currentHeader t.m_file
              (env.outline_indexOfItemByBlockNumber t.log p_blockNumber)
        ∧ (env.updatesHeader →
            (updateCurrentHeader_int env t p_blockNumber).m_currentHeader
              = VHeaderPointer.mk (some t.m_file)
                  (env.outline_indexOfItemByBlockNumber t.log p_blockNumber))) := by
  refine ⟨?_, ?_, ?_, ?_⟩
  · intro h
    simp [updateCurrentHeader_QString, h]
  · intro h
    have hcur : (updateCurrentHeader_QString env t p_anchor).m_currentHeader
        = env.header_update t.m_currentHeader t.m_file
            (env.outline_indexOfItemByAnchor t.log p_anchor) := by
      simp [updateCurrentHeader_QString, h, VMdTab.call]
    exact ⟨hcur, fun hlaw => hcur.trans (hlaw _ _ _)⟩
  · intro h
    simp [updateCurrentHeader_int, h]
  · intro h
    have hcur : (updateCurrentHeader_int env t p_blockNumber).m_currentHeader
        = env.header_update t.m_currentHeader t.m_file
            (env.outline_indexOfItemByBlockNumber t.log p_blockNumber) := by
      simp [updateCurrentHeader_int, h, VMdTab.call]
    exact ⟨hcur, fun hlaw => hcur.trans (hlaw _ _ _)⟩

/-- C12, run on the sample note: the web view reports the anchor `toc_1` while
the note is being read, and the current header becomes header 1 of file 1. -/
theorem updateCurrentHeader_gated_by_mode_witness :
    sampleReading.m_isEditMode = false
    ∧ (updateCurrentHeader_QString sampleEnv sampleReading "toc_1").m_currentHeader
        = VHeaderPointer.mk (some sampleReading.m_file)
            (sampleEnv.outline_indexOfItemByAnchor sampleReading.log "toc_1") :=
  ⟨rfl, ((updateCurrentHeader_gated_by_mode sampleEnv sampleReading "toc_1" 0).2.1 rfl).2
    (fun _ _ _ => rfl)⟩

theorem connectAll_adds_of {P : Call → Prop} (cs : List Connection) (t : VMdTab)
    (hP : ∀ c ∈ cs, P (Call.connect c)) : Adds P t.log (t.connectAll cs).log := by
  unfold VMdTab.connectAll
  induction cs generalizing t with
  | nil => exact Adds.refl
  | cons c cs ih =>
    rw [List.foldl_cons]
    exact Adds.trans (Adds.call Adds.refl (hP c (List.mem_cons_self _ _)))
      (ih _ (fun d hd => hP d (List.mem_cons_of_mem _ hd)))

theorem setupMarkdownEditor_adds_setup (t : VMdTab) :
    Adds (fun c => c.ofEditorSetup = true) t.log (setupMarkdownEditor t).log := by
  unfold setupMarkdownEditor
  dsimp only
  have h₀ : Adds (fun c => c.ofEditorSetup = true) t.log
      ({ t.call Call.editorNew with m_editor := true }.call Call.editorSetProperty).log :=
    Adds.cons rfl (Adds.cons rfl Adds.refl)
  have h := Adds.trans h₀
    (connectAll_adds_of editorConnections
      ({ t.call Call.editorNew with m_editor := true }.call Call.editorSetProperty)
      (fun c hc => by simpa [Call.ofEditorSetup] using hc))
  generalize VMdTab.connectAll _ editorConnections = t₁ at h ⊢
  refine Adds.call (Adds.call ?_ rfl) rfl
  split
  · exact Adds.call h rfl
  · exact h

theorem getEditor_adds_setup (t : VMdTab) :
    Adds (fun c => c.ofEditorSetup = true) t.log (getEditor t).log := by
  unfold getEditor
  split
  · exact Adds.refl
  · exact setupMarkdownEditor_adds_setup t

theorem ofEditorSetup_plain (c : Call) (hc : c.ofEditorSetup = true) :
    c.isScroll = false ∧ c.isBackupPrompt = false
      ∧ c ≠ Call.connect Connection.contentsChange := by
  cases c <;> simp_all [Call.ofEditorSetup, Call.isScroll, Call.isBackupPrompt]
  rintro rfl
  simp [editorConnections] at hc

theorem getEditor_no_scroll (t : VMdTab) : ∀ c ∈ newCalls t (getEditor t), c.isScroll = false :=
  ((getEditor_adds_setup t).mono (fun c hc => (ofEditorSetup_plain c hc).1)).newCalls

/-- C13. In `scrollEditorToHeader`, with an outline of type `BlockNumber` that
matches the header pointer: a pointer that is not valid on an empty outline
gives true, becomes the current header and nothing is scrolled; on a non-empty
outline the editor is scrolled to block 0.  A valid pointer whose item is
missing, or has block number -1, gives false and nothing is scrolled; otherwise
the editor is scrolled to the block number of the item.  Where the editor is
scrolled this is the only scroll, the result is what the editor's
`scrollToHeader` returns, and the pointer becomes the current header when that
is true. -/
theorem scrollEditorToHeader_target (env : Env) (t : VMdTab) (p_header : VHeaderPointer)
    (hm : env.outline_isMatched t.log p_header = true)
    (hty : env.outline_getType t.log = VTableOfContentType.BlockNumber) :
    let ed := getEditor t
    let r := scrollEditorToHeader env t p_header
    let scrolled := fun (blockNumber : Int) =>
      r = scrollEditorTo env ed p_header blockNumber
      ∧ newCalls t r.2 = Call.editorScrollToHeader blockNumber :: newCalls t ed
    (∀ c ∈ newCalls t ed, c.isScroll = false)
    ∧ (p_header.isValid = false → env.outline_isEmpty ed.log = true →
        r = (true, { ed with m_currentHeader := p_header }) ∧ newCalls t r.2 = newCalls t ed)
    ∧ (p_header.isValid = false → env.outline_isEmpty ed.log = false → scrolled 0)
    ∧ (p_header.isValid = true →
        (env.outline_getItem ed.log p_header = none
          ∨ ∃ item, env.outline_getItem ed.log p_header = some item ∧ item.m_blockNumber = -1) →
        r = (false, ed))
    ∧ (p_header.isValid = true →
        ∀ item, env.outline_getItem ed.log p_header = some item → item.m_blockNumber ≠ -1 →
          scrolled item.m_blockNumber) := by
  dsimp only
  have hguard : (!env.outline_isMatched t.log p_header
      || env.outline_getType t.log != VTableOfContentType.BlockNumber) = false := by
    simp [hm, hty]
  have hscroll : ∀ blockNumber : Int,
      newCalls t (scrollEditorTo env (getEditor t) p_header blockNumber).2
        = Call.editorScrollToHeader blockNumber :: newCalls t (getEditor t) := by
    intro blockNumber
    rw [← newCalls_call_of_adds (getEditor_adds t) (Call.editorScrollToHeader blockNumber)]
    unfold scrollEditorTo
    dsimp only
    split <;> rfl
  refine ⟨getEditor_no_scroll t, ?_, ?_, ?_, ?_⟩
  · intro hv he
    have hr : scrollEditorToHeader env t p_header
        = (true, { getEditor t with m_currentHeader := p_header }) := by
      unfold scrollEditorToHeader
      simp [hguard, hv, he]
    rw [hr]
    exact ⟨rfl, rfl⟩
  · intro hv he
    have hr : scrollEditorToHeader env t p_header
        = scrollEditorTo env (getEditor t) p_header 0 := by
      unfold scrollEditorToHeader scrollEditorTo
      simp only [hguard, hv, he]
      rfl
    rw [hr]
    exact ⟨rfl, hscroll 0⟩
  · intro hv hitem
    unfold scrollEditorToHeader
    rcases hitem with h | ⟨item, h, hb⟩
    · simp [hguard, hv, h]
    · simp [hguard, hv, h, hb]
  · intro hv item h hb
    have hr : scrollEditorToHeader env t p_header
        = scrollEditorTo env (getEditor t) p_header item.m_blockNumber := by
      unfold scrollEditorToHeader scrollEditorTo
      simp [hguard, hv, h, hb]
    rw [hr]
    exact ⟨rfl, hscroll item.m_blockNumber⟩

/-- C13, run on the sample note with the headers of the editor as outline:
header 1 sits in block 4, and the editor is scrolled there. -/
theorem scrollEditorToHeader_target_witness :
    sampleEnv.outline_isMatched sampleEditingWithHeaders.log (VHeaderPointer.mk (some 1) 1) = true
    ∧ sampleEnv.outline_getType sampleEditingWithHeaders.log = VTableOfContentType.BlockNumber
    ∧ newCalls sampleEditingWithHeaders
        (scrollEditorToHeader sampleEnv sampleEditingWithHeaders (VHeaderPointer.mk (some 1) 1)).2
      = Call.editorScrollToHeader 4
          :: newCalls sampleEditingWithHeaders (getEditor sampleEditingWithHeaders) :=
  ⟨rfl, rfl,
    ((scrollEditorToHeader_target sampleEnv sampleEditingWithHeaders (VHeaderPointer.mk (some 1) 1)
      rfl rfl).2.2.2.2 rfl (VTableOfContentItem.mk "toc_1" 4) rfl (by decide)).2⟩

/-! ## The backup check at readiness -/

theorem connectAll_backupSettings (cs : List Connection) (t : VMdTab) :
    (t.connectAll cs).backupSettings = t.backupSettings := by
  unfold VMdTab.connectAll
  induction cs generalizing t with
  | nil => rfl
  | cons c cs ih =>
    rw [List.foldl_cons, ih]
    rfl

theorem getEditor_backupSettings (t : VMdTab) :
    (getEditor t).backupSettings = t.backupSettings := by
  unfold getEditor
  split
  · rfl
  · unfold setupMarkdownEditor
    dsimp only
    have h := connectAll_backupSettings editorConnections
      ({ t.call Call.editorNew with m_editor := true }.call Call.editorSetProperty)
    generalize VMdTab.connectAll _ editorConnections = t₁ at h ⊢
    split <;> exact h

theorem scrollEditorToHeader_backupSettings (env : Env) (t : VMdTab) (h : VHeaderPointer) :
    (scrollEditorToHeader env t h).2.backupSettings = t.backupSettings := by
  unfold scrollEditorToHeader
  dsimp only
  repeat' split
  all_goals first
    | rfl
    | exact getEditor_backupSettings t

theorem scrollWebViewToHeader_backupSettings (env : Env) (t : VMdTab) (h : VHeaderPointer) :
    (scrollWebViewToHeader env t h).2.backupSettings = t.backupSettings := by
  unfold scrollWebViewToHeader
  repeat' split
  all_goals rfl

theorem waitForHeaders_backupSettings (env : Env) (header : VHeaderPointer) (n : Nat)
    (t : VMdTab) : (waitForHeaders env header n t).backupSettings = t.backupSettings := by
  induction n generalizing t with
  | zero => rfl
  | succ n ih =>
    unfold waitForHeaders
    split
    · rw [ih]; rfl
    · rfl

theorem showFileEditMode_backupSettings (env : Env) (t : VMdTab) :
    (showFileEditMode env t).backupSettings = t.backupSettings := by
  unfold showFileEditMode
  show (scrollEditorToHeader env _ _).2.backupSettings = _
  rw [scrollEditorToHeader_backupSettings, waitForHeaders_backupSettings]
  show (getEditor _).backupSettings = _
  rw [getEditor_backupSettings]
  rfl

theorem restoreFromTabInfo_void_backupSettings (env : Env) (t : VMdTab) :
    (restoreFromTabInfo_void env t).backupSettings = t.backupSettings := by
  unfold restoreFromTabInfo_void restoreFromTabInfo scrollToHeaderInternal
  show VMdTab.backupSettings (Prod.snd _) = _
  repeat' split
  · rfl
  · exact scrollEditorToHeader_backupSettings env t _
  · exact scrollWebViewToHeader_backupSettings env t _

theorem tabIsReadyConnect_backupSettings (env : Env) (t : VMdTab) (p_mode : TabReady) :
    (tabIsReadyConnect env t p_mode).backupSettings = t.backupSettings := by
  unfold tabIsReadyConnect
  split <;> rfl

theorem checkPreviousBackupFile_checked (env : Env) (t : VMdTab) :
    (checkPreviousBackupFile env t).2.m_backupFileChecked = true := by
  cases hpre : (env.file_backupFileOfPreviousSession t.log).isEmpty
  · rcases hbtn : env.clickedButton (backupBoxShown env t).log with _ | b
    · rw [checkPreviousBackupFile_cancel env t hpre (Or.inr hbtn)]
      rfl
    · cases b
      · rw [checkPreviousBackupFile_recover env t hpre hbtn]
        show VMdTab.m_backupFileChecked (ite _ _ _) = true
        split
        · exact congrArg Prod.snd (showFileEditMode_backupSettings env (backupBoxShown env t))
        · rfl
      · rw [checkPreviousBackupFile_discard env t hpre hbtn]
        rfl
      · rw [checkPreviousBackupFile_cancel env t hpre (Or.inl hbtn)]
        rfl
  · rw [checkPreviousBackupFile_none env t hpre]

theorem ofEditorSetup_ofViewChange (c : Call) (hc : c.ofEditorSetup = true) :
    c.ofViewChange = true := by
  cases c <;> simp_all [Call.ofViewChange, Call.ofEditorSetup]

theorem ofViewChange_plain (c : Call) (hc : c.ofViewChange = true) :
    c.isBackupPrompt = false ∧ c ≠ Call.connect Connection.contentsChange := by
  constructor
  · cases c <;> simp_all [Call.ofViewChange, Call.ofEditorSetup, Call.isBackupPrompt]
  · rintro rfl
    simp [Call.ofViewChange, Call.ofEditorSetup, editorConnections] at hc

theorem getEditor_adds_view (t : VMdTab) :
    Adds (fun c => c.ofViewChange = true) t.log (getEditor t).log :=
  (getEditor_adds_setup t).mono ofEditorSetup_ofViewChange

theorem scrollEditorToHeader_adds_view (env : Env) (t : VMdTab) (h : VHeaderPointer) :
    Adds (fun c => c.ofViewChange = true) t.log (scrollEditorToHeader env t h).2.log := by
  unfold scrollEditorToHeader
  dsimp only
  repeat' split
  all_goals first
    | exact Adds.refl
    | exact getEditor_adds_view t
    | exact Adds.call (getEditor_adds_view t) rfl

theorem scrollWebViewToHeader_adds_view (env : Env) (t : VMdTab) (h : VHeaderPointer) :
    Adds (fun c => c.ofViewChange = true) t.log (scrollWebViewToHeader env t h).2.log := by
  unfold scrollWebViewToHeader
  repeat' split
  all_goals simp only [VMdTab.call]
  all_goals repeat (first | exact Adds.refl | refine Adds.cons rfl ?_)

theorem waitForHeaders_adds_view (env : Env) (header : VHeaderPointer) (n : Nat) (t : VMdTab) :
    Adds (fun c => c.ofViewChange = true) t.log (waitForHeaders env header n t).log := by
  induction n generalizing t with
  | zero => exact Adds.refl
  | succ n ih =>
    unfold waitForHeaders
    split
    · exact Adds.trans (Adds.call (c := Call.sleepWait 100)
        (Adds.call (c := Call.qDebug) Adds.refl rfl) rfl) (ih _)
    · exact Adds.refl

theorem showFileEditMode_adds_view (env : Env) (t : VMdTab) :
    Adds (fun c => c.ofViewChange = true) t.log (showFileEditMode env t).log := by
  unfold showFileEditMode
  refine Adds.call ?_ rfl
  refine Adds.trans ?_ (scrollEditorToHeader_adds_view env _ _)
  refine Adds.trans ?_ (waitForHeaders_adds_view env _ _ _)
  refine Adds.call (Adds.call ?_ rfl) rfl
  exact getEditor_adds_view { t with m_isEditMode := true }

theorem restoreFromTabInfo_void_adds_view (env : Env) (t : VMdTab) :
    Adds (fun c => c.ofViewChange = true) t.log (restoreFromTabInfo_void env t).log := by
  unfold restoreFromTabInfo_void restoreFromTabInfo scrollToHeaderInternal
  show Adds _ _ (VMdTab.log (Prod.snd _))
  repeat' split
  · exact Adds.refl
  · exact scrollEditorToHeader_adds_view env t _
  · exact scrollWebViewToHeader_adds_view env t _

theorem promptCount_of_adds {t t' : VMdTab}
    (h : Adds (fun c => c.ofViewChange = true) t.log t'.log) :
    promptCount (newCalls t t') = 0 := by
  unfold promptCount
  rw [List.countP_eq_zero]
  intro c hc
  have := (ofViewChange_plain c (h.newCalls c hc)).1
  simp [this]

theorem promptCount_trans {P Q : Call → Prop} {t m t' : VMdTab}
    (h₁ : Adds P t.log m.log) (h₂ : Adds Q m.log t'.log) :
    promptCount (newCalls t t') = promptCount (newCalls m t') + promptCount (newCalls t m) := by
  rw [newCalls_trans h₁ h₂]
  exact List.countP_append _ _ _

theorem backupBoxShown_promptCount (env : Env) (t : VMdTab) :
    promptCount (newCalls t (backupBoxShown env t)) = 1 := by
  rw [backupBoxShown_newCalls]
  rfl

theorem backupBoxShown_adds_box (env : Env) (t : VMdTab) :
    Adds (fun c => c.ofViewChange = true ∨ c.isBackupPrompt = true) t.log
      (backupBoxShown env t).log :=
  Adds.cons (Or.inr rfl) (Adds.cons (Or.inl rfl) Adds.refl)

theorem recoverTarget_adds_box (env : Env) (t : VMdTab) :
    Adds (fun c => c.ofViewChange = true ∨ c.isBackupPrompt = true) t.log
      (if !t.m_isEditMode then showFileEditMode env (backupBoxShown env t)
        else backupBoxShown env t).log := by
  split
  · exact (backupBoxShown_adds_box env t).trans
      ((showFileEditMode_adds_view env _).mono (fun _ h => Or.inl h))
  · exact backupBoxShown_adds_box env t

theorem recoverTarget_promptCount (env : Env) (t : VMdTab) :
    promptCount (newCalls t
      (if !t.m_isEditMode then showFileEditMode env (backupBoxShown env t)
        else backupBoxShown env t)) = 1 := by
  split
  · rw [promptCount_trans (backupBoxShown_adds env t) (showFileEditMode_adds_view env _),
      promptCount_of_adds (showFileEditMode_adds_view env _), backupBoxShown_promptCount]
  · exact backupBoxShown_promptCount env t

theorem checkPreviousBackupFile_adds_box (env : Env) (t : VMdTab) :
    Adds (fun c => c.ofViewChange = true ∨ c.isBackupPrompt = true) t.log
      (checkPreviousBackupFile env t).2.log := by
  cases hpre : (env.file_backupFileOfPreviousSession t.log).isEmpty
  · rcases hbtn : env.clickedButton (backupBoxShown env t).log with _ | b
    · rw [checkPreviousBackupFile_cancel env t hpre (Or.inr hbtn)]
      exact Adds.call (backupBoxShown_adds_box env t) (Or.inl rfl)
    · cases b
      · rw [checkPreviousBackupFile_recover env t hpre hbtn]
        exact Adds.call (Adds.call (Adds.call (recoverTarget_adds_box env t) (Or.inl rfl))
          (Or.inl rfl)) (Or.inl rfl)
      · rw [checkPreviousBackupFile_discard env t hpre hbtn]
        exact Adds.call (backupBoxShown_adds_box env t) (Or.inl rfl)
      · rw [checkPreviousBackupFile_cancel env t hpre (Or.inl hbtn)]
        exact Adds.call (backupBoxShown_adds_box env t) (Or.inl rfl)
  · rw [checkPreviousBackupFile_none env t hpre]
    exact Adds.refl

theorem checkPreviousBackupFile_promptCount (env : Env) (t : VMdTab) :
    promptCount (newCalls t (checkPreviousBackupFile env t).2) ≤ 1 := by
  have hcall : ∀ (c : Call) (m : VMdTab), Adds (fun _ => True) t.log m.log →
      c.isBackupPrompt = false →
      promptCount (newCalls t (m.call c)) = promptCount (newCalls t m) := by
    intro c m hm hc
    rw [newCalls_call_of_adds hm]
    simp [promptCount, List.countP_cons, hc]
  cases hpre : (env.file_backupFileOfPreviousSession t.log).isEmpty
  · rcases hbtn : env.clickedButton (backupBoxShown env t).log with _ | b
    · rw [checkPreviousBackupFile_cancel env t hpre (Or.inr hbtn)]
      show promptCount (newCalls t ((backupBoxShown env t).call Call.emitCloseRequested)) ≤ 1
      rw [hcall Call.emitCloseRequested _ (backupBoxShown_adds env t) rfl,
        backupBoxShown_promptCount]
    · cases b
      · rw [checkPreviousBackupFile_recover env t hpre hbtn]
        have h₀ := recoverTarget_adds env t
        show promptCount (newCalls t ((((ite _ _ _ : VMdTab).call
          (Call.editorSetContent (backupContentRead env t) true)).call Call.updateStatus).call
          (Call.deleteFile (env.file_backupFileOfPreviousSession t.log)))) ≤ 1
        rw [hcall (Call.deleteFile _) _ (Adds.call (Adds.call h₀ trivial) trivial) rfl,
          hcall Call.updateStatus _ (Adds.call h₀ trivial) rfl,
          hcall (Call.editorSetContent _ _) _ h₀ rfl, recoverTarget_promptCount]
      · rw [checkPreviousBackupFile_discard env t hpre hbtn]
        show promptCount (newCalls t ((backupBoxShown env t).call (Call.deleteFile _))) ≤ 1
        rw [hcall (Call.deleteFile _) _ (backupBoxShown_adds env t) rfl,
          backupBoxShown_promptCount]
      · rw [checkPreviousBackupFile_cancel env t hpre (Or.inl hbtn)]
        show promptCount (newCalls t ((backupBoxShown env t).call Call.emitCloseRequested)) ≤ 1
        rw [hcall Call.emitCloseRequested _ (backupBoxShown_adds env t) rfl,
          backupBoxShown_promptCount]
  · rw [checkPreviousBackupFile_none env t hpre]
    have : newCalls t { t with m_backupFileChecked := true } = [] := newCalls_of_log_eq rfl
    show promptCount (newCalls t { t with m_backupFileChecked := true }) ≤ 1
    rw [this]
    exact Nat.zero_le _

theorem promptCount_zero_of_adds {t t' : VMdTab}
    (h : Adds (fun c => c.isBackupPrompt = false) t.log t'.log) :
    promptCount (newCalls t t') = 0 := by
  unfold promptCount
  rw [List.countP_eq_zero]
  intro c hc
  simp [h.newCalls c hc]

theorem tabIsReadyConnect_adds (env : Env) (t : VMdTab) (p_mode : TabReady) :
    Adds (fun c => c.isBackupPrompt = false) t.log (tabIsReadyConnect env t p_mode).log := by
  unfold tabIsReadyConnect
  split
  · exact Adds.call Adds.refl rfl
  · exact Adds.refl

theorem restoreFromTabInfo_void_adds_quiet (env : Env) (t : VMdTab) :
    Adds (fun c => c.isBackupPrompt = false) t.log (restoreFromTabInfo_void env t).log :=
  (restoreFromTabInfo_void_adds_view env t).mono (fun c h => (ofViewChange_plain c h).1)

theorem restored_settings (env : Env) (t : VMdTab) :
    (restoreFromTabInfo_void env t).m_enableBackupFile = t.m_enableBackupFile
    ∧ (restoreFromTabInfo_void env t).m_backupFileChecked = t.m_backupFileChecked :=
  ⟨congrArg Prod.fst (restoreFromTabInfo_void_backupSettings env t),
    congrArg Prod.snd (restoreFromTabInfo_void_backupSettings env t)⟩

theorem tabIsReady_not_due (env : Env) (t : VMdTab) (p_mode : TabReady)
    (h : ¬ (isCurrentMode t p_mode = true ∧ t.m_enableBackupFile = true
      ∧ env.file_isModifiable (restoreFromTabInfo_void env t).log = true
      ∧ t.m_backupFileChecked = false)) :
    tabIsReady env t p_mode
      = tabIsReadyConnect env
          (if isCurrentMode t p_mode then restoreFromTabInfo_void env t else t) p_mode := by
  unfold tabIsReady
  dsimp only
  cases hcur : isCurrentMode t p_mode
  · simp
  · simp only [if_true]
    rw [if_neg]
    rw [(restored_settings env t).1, (restored_settings env t).2]
    intro hg
    apply h
    simp only [Bool.and_eq_true, Bool.not_eq_true'] at hg
    exact ⟨hcur, hg.1.1, hg.2, hg.1.2⟩

theorem tabIsReady_due (env : Env) (t : VMdTab) (p_mode : TabReady)
    (h : isCurrentMode t p_mode = true ∧ t.m_enableBackupFile = true
      ∧ env.file_isModifiable (restoreFromTabInfo_void env t).log = true
      ∧ t.m_backupFileChecked = false) :
    tabIsReady env t p_mode
      = if (checkPreviousBackupFile env (restoreFromTabInfo_void env t)).1 then
          tabIsReadyConnect env
            (checkPreviousBackupFile env (restoreFromTabInfo_void env t)).2 p_mode
        else (checkPreviousBackupFile env (restoreFromTabInfo_void env t)).2 := by
  obtain ⟨hcur, hen, hmod, hch⟩ := h
  unfold tabIsReady
  dsimp only
  rw [if_pos hcur, if_pos]
  · cases (checkPreviousBackupFile env (restoreFromTabInfo_void env t)).1 <;> simp
  · rw [(restored_settings env t).1, (restored_settings env t).2]
    simp [hen, hmod, hch]

theorem tabIsReady_step (env : Env) (t : VMdTab) (p_mode : TabReady) :
    Adds (fun _ => True) t.log (tabIsReady env t p_mode).log
    ∧ promptCount (newCalls t (tabIsReady env t p_mode)) ≤ 1
    ∧ (t.m_backupFileChecked = true →
        promptCount (newCalls t (tabIsReady env t p_mode)) = 0)
    ∧ (t.m_backupFileChecked = true ∨ 0 < promptCount (newCalls t (tabIsReady env t p_mode)) →
        (tabIsReady env t p_mode).m_backupFileChecked = true) := by
  by_cases hdue : isCurrentMode t p_mode = true ∧ t.m_enableBackupFile = true
      ∧ env.file_isModifiable (restoreFromTabInfo_void env t).log = true
      ∧ t.m_backupFileChecked = false
  · have hrest := restoreFromTabInfo_void_adds_quiet env t
    have hcheck := checkPreviousBackupFile_adds_box env (restoreFromTabInfo_void env t)
    have hcount := checkPreviousBackupFile_promptCount env (restoreFromTabInfo_void env t)
    have hchecked := checkPreviousBackupFile_checked env (restoreFromTabInfo_void env t)
    have hmid : promptCount (newCalls t (checkPreviousBackupFile env
        (restoreFromTabInfo_void env t)).2) ≤ 1 := by
      rw [promptCount_trans hrest hcheck, promptCount_zero_of_adds hrest]
      exact hcount
    rw [tabIsReady_due env t p_mode hdue]
    have hnot : ¬ t.m_backupFileChecked = true := by simp [hdue.2.2.2]
    split
    · have hconn := tabIsReadyConnect_adds env
        (checkPreviousBackupFile env (restoreFromTabInfo_void env t)).2 p_mode
      have hto : Adds (fun _ => True) t.log
          (checkPreviousBackupFile env (restoreFromTabInfo_void env t)).2.log :=
        (hrest.mono (fun _ _ => trivial)).trans (hcheck.mono (fun _ _ => trivial))
      refine ⟨hto.trans (hconn.mono (fun _ _ => trivial)), ?_, fun h => absurd h hnot, ?_⟩
      · rw [promptCount_trans hto hconn, promptCount_zero_of_adds hconn]
        simpa using hmid
      · intro _
        have := congrArg Prod.snd (tabIsReadyConnect_backupSettings env
          (checkPreviousBackupFile env (restoreFromTabInfo_void env t)).2 p_mode)
        exact this.trans hchecked
    · exact ⟨(hrest.mono (fun _ _ => trivial)).trans (hcheck.mono (fun _ _ => trivial)),
        hmid, fun h => absurd h hnot, fun _ => hchecked⟩
  · rw [tabIsReady_not_due env t p_mode hdue]
    have hmid : Adds (fun c => c.isBackupPrompt = false) t.log
        (if isCurrentMode t p_mode then restoreFromTabInfo_void env t else t).log := by
      split
      · exact restoreFromTabInfo_void_adds_quiet env t
      · exact Adds.refl
    have hall := hmid.trans (tabIsReadyConnect_adds env _ p_mode)
    have hzero := promptCount_zero_of_adds hall
    have hflag : (tabIsReadyConnect env
        (if isCurrentMode t p_mode then restoreFromTabInfo_void env t else t)
        p_mode).m_backupFileChecked = t.m_backupFileChecked := by
      have h₁ := congrArg Prod.snd (tabIsReadyConnect_backupSettings env
        (if isCurrentMode t p_mode then restoreFromTabInfo_void env t else t) p_mode)
      refine h₁.trans ?_
      split
      · exact (restored_settings env t).2
      · rfl
    refine ⟨hall.mono (fun _ _ => trivial), ?_, fun _ => hzero, ?_⟩
    · rw [hzero]
      exact Nat.zero_le _
    · rintro (h | h)
      · rw [hflag]
        exact h
      · rw [hzero] at h
        cases h

theorem tabIsReadyAll_adds (env : Env) (modes : List TabReady) (t : VMdTab) :
    Adds (fun _ => True) t.log (tabIsReadyAll env t modes).log := by
  unfold tabIsReadyAll
  induction modes generalizing t with
  | nil => exact Adds.refl
  | cons m ms ih =>
    rw [List.foldl_cons]
    exact (tabIsReady_step env t m).1.trans (ih _)

theorem tabIsReadyAll_checked (env : Env) (modes : List TabReady) (t : VMdTab)
    (h : t.m_backupFileChecked = true) :
    promptCount (newCalls t (tabIsReadyAll env t modes)) = 0 := by
  induction modes generalizing t with
  | nil =>
    show promptCount (newCalls t t) = 0
    rw [newCalls_self]
    rfl
  | cons m ms ih =>
    have hstep := tabIsReady_step env t m
    show promptCount (newCalls t (tabIsReadyAll env (tabIsReady env t m) ms)) = 0
    rw [promptCount_trans hstep.1 (tabIsReadyAll_adds env ms _),
      ih _ (hstep.2.2.2 (Or.inl h)), hstep.2.2.1 h]

theorem tabIsReadyAll_promptCount (env : Env) (modes : List TabReady) (t : VMdTab) :
    promptCount (newCalls t (tabIsReadyAll env t modes)) ≤ 1 := by
  induction modes generalizing t with
  | nil =>
    show promptCount (newCalls t t) ≤ 1
    rw [newCalls_self]
    exact Nat.zero_le _
  | cons m ms ih =>
    have hstep := tabIsReady_step env t m
    show promptCount (newCalls t (tabIsReadyAll env (tabIsReady env t m) ms)) ≤ 1
    rw [promptCount_trans hstep.1 (tabIsReadyAll_adds env ms _)]
    by_cases hz : promptCount (newCalls t (tabIsReady env t m)) = 0
    · rw [hz]
      exact ih _
    · rw [tabIsReadyAll_checked env ms _ (hstep.2.2.2 (Or.inr (Nat.pos_of_ne_zero hz)))]
      simpa using hstep.2.1

/-- C14. `checkPreviousBackupFile` leaves `m_backupFileChecked` true on every
path.  `tabIsReady` runs it only when the ready mode is the mode of the tab,
backup files are enabled, the file is modifiable and `m_backupFileChecked` is
false: otherwise `tabIsReady` is the restoring of the tab information (in the
current mode) followed by the connection of the backup timer, shows no box
about a backup file and leaves `m_backupFileChecked` as it was.  Over any run
of `tabIsReady` calls the box about a backup file is shown at most once.  When
the check is run and returns false, `tabIsReady` does not connect the
document's `contentsChange` to the backup timer. -/
theorem backup_check_at_most_once (env : Env) (t : VMdTab) (p_mode : TabReady)
    (modes : List TabReady) :
    let restored := restoreFromTabInfo_void env t
    let check := checkPreviousBackupFile env restored
    let due := isCurrentMode t p_mode = true ∧ t.m_enableBackupFile = true
      ∧ env.file_isModifiable restored.log = true ∧ t.m_backupFileChecked = false
    (∀ s : VMdTab, (checkPreviousBackupFile env s).2.m_backupFileChecked = true)
    ∧ (¬ due →
        tabIsReady env t p_mode
          = tabIsReadyConnect env (if isCurrentMode t p_mode then restored else t) p_mode
        ∧ promptCount (newCalls t (tabIsReady env t p_mode)) = 0
        ∧ (tabIsReady env t p_mode).m_backupFileChecked = t.m_backupFileChecked)
    ∧ (due →
        tabIsReady env t p_mode
          = if check.1 then tabIsReadyConnect env check.2 p_mode else check.2)
    ∧ promptCount (newCalls t (tabIsReadyAll env t modes)) ≤ 1
    ∧ (due → check.1 = false →
        Call.connect Connection.contentsChange ∉ newCalls t (tabIsReady env t p_mode)) := by
  dsimp only
  refine ⟨fun s => checkPreviousBackupFile_checked env s, ?_, tabIsReady_due env t p_mode,
    tabIsReadyAll_promptCount env modes t, ?_⟩
  · intro hdue
    have hmid : Adds (fun c => c.isBackupPrompt = false) t.log
        (if isCurrentMode t p_mode then restoreFromTabInfo_void env t else t).log := by
      split
      · exact restoreFromTabInfo_void_adds_quiet env t
      · exact Adds.refl
    rw [tabIsReady_not_due env t p_mode hdue]
    refine ⟨rfl, promptCount_zero_of_adds (hmid.trans (tabIsReadyConnect_adds env _ p_mode)), ?_⟩
    refine (congrArg Prod.snd (tabIsReadyConnect_backupSettings env _ p_mode)).trans ?_
    split
    · exact (restored_settings env t).2
    · rfl
  · intro hdue hfalse hmem
    rw [tabIsReady_due env t p_mode hdue, hfalse] at hmem
    have hadds : Adds (fun c => c ≠ Call.connect Connection.contentsChange) t.log
        (checkPreviousBackupFile env (restoreFromTabInfo_void env t)).2.log := by
      refine Adds.trans
        ((restoreFromTabInfo_void_adds_view env t).mono (fun c h => (ofViewChange_plain c h).2))
        ((checkPreviousBackupFile_adds_box env _).mono ?_)
      rintro c (h | h)
      · exact (ofViewChange_plain c h).2
      · rintro rfl
        cases h
    exact hadds.newCalls _ hmem rfl

/-- C14, run on the sample note while it is read: the check is due, the user
cancels the box, and the backup timer is not connected. -/
theorem backup_check_at_most_once_witness :
    (isCurrentMode sampleReading TabReady.ReadMode = true
      ∧ sampleReading.m_enableBackupFile = true
      ∧ sampleEnvCancel.file_isModifiable
          (restoreFromTabInfo_void sampleEnvCancel sampleReading).log = true
      ∧ sampleReading.m_backupFileChecked = false)
    ∧ (checkPreviousBackupFile sampleEnvCancel
        (restoreFromTabInfo_void sampleEnvCancel sampleReading)).1 = false
    ∧ Call.connect Connection.contentsChange
        ∉ newCalls sampleReading (tabIsReady sampleEnvCancel sampleReading TabReady.ReadMode) :=
  ⟨⟨rfl, rfl, rfl, rfl⟩, by decide,
    (backup_check_at_most_once sampleEnvCancel sampleReading TabReady.ReadMode []).2.2.2.2
      ⟨rfl, rfl, rfl, rfl⟩ (by decide)⟩

/-- C15. With `c_webZoomFactorMin ≤ c_webZoomFactorMax`, `zoomWebPage` sets a
zoom factor within these bounds: the current factor plus the step (zoom in) or
minus the step (zoom out) when that lies within the bounds, the minimum when
that is below the minimum and the maximum when it is above the maximum. -/
theorem zoomWebPage_clamps (env : Env) (t : VMdTab) (p_zoomIn : Bool) (p_step : ℚ)
    (hbounds : env.c_webZoomFactorMin ≤ env.c_webZoomFactorMax) :
    let curFactor := env.webViewer_zoomFactor t.log
    let wanted := if p_zoomIn then curFactor + p_step else curFactor - p_step
    ∃ newFactor : ℚ,
      zoomWebPage env t p_zoomIn p_step = t.call (Call.webViewerSetZoomFactor newFactor)
      ∧ env.c_webZoomFactorMin ≤ newFactor ∧ newFactor ≤ env.c_webZoomFactorMax
      ∧ (env.c_webZoomFactorMin ≤ wanted → wanted ≤ env.c_webZoomFactorMax →
          newFactor = wanted)
      ∧ (wanted < env.c_webZoomFactorMin → newFactor = env.c_webZoomFactorMin)
      ∧ (env.c_webZoomFactorMax < wanted → newFactor = env.c_webZoomFactorMax) := by
  dsimp only
  generalize hw : (if p_zoomIn = true then env.webViewer_zoomFactor t.log + p_step
    else env.webViewer_zoomFactor t.log - p_step) = wanted
  have hz : zoomWebPage env t p_zoomIn p_step
      = t.call (Call.webViewerSetZoomFactor
          (if wanted < env.c_webZoomFactorMin then env.c_webZoomFactorMin
           else if wanted > env.c_webZoomFactorMax then env.c_webZoomFactorMax
           else wanted)) := by
    unfold zoomWebPage
    dsimp only
    rw [hw]
  refine ⟨_, hz, ?_⟩
  by_cases h₁ : wanted < env.c_webZoomFactorMin
  · rw [if_pos h₁]
    refine ⟨le_refl _, hbounds, ?_, fun _ => rfl, ?_⟩
    · intro h
      exact absurd h₁ (not_lt.mpr h)
    · intro h
      exact absurd (lt_of_le_of_lt hbounds h) (not_lt.mpr (le_of_lt h₁))
  · rw [if_neg h₁]
    by_cases h₂ : wanted > env.c_webZoomFactorMax
    · rw [if_pos h₂]
      refine ⟨hbounds, le_refl _, ?_, fun h => absurd h h₁, fun _ => rfl⟩
      intro _ h
      exact absurd h₂ (not_lt.mpr h)
    · rw [if_neg h₂]
      exact ⟨not_lt.mp h₁, not_lt.mp h₂, fun _ _ => rfl, fun h => absurd h h₁,
        fun h => absurd h h₂⟩

/-- C15, run on the sample note: at factor 1, zooming in by 1/4 sets 5/4. -/
theorem zoomWebPage_clamps_witness :
    sampleEnv.c_webZoomFactorMin ≤ sampleEnv.c_webZoomFactorMax
    ∧ ∃ newFactor : ℚ,
        zoomWebPage sampleEnv sampleReading true (1 / 4)
          = sampleReading.call (Call.webViewerSetZoomFactor newFactor)
        ∧ sampleEnv.c_webZoomFactorMin ≤ newFactor
        ∧ newFactor ≤ sampleEnv.c_webZoomFactorMax :=
  ⟨by norm_num [sampleEnv],
    (zoomWebPage_clamps sampleEnv sampleReading true (1 / 4) (by norm_num [sampleEnv])).imp
      (fun _ h => ⟨h.1, h.2.1, h.2.2.1⟩)⟩

end VNote
